import Mathlib

/-!
Verification of the WarmStreet offline-first synchronization core against its
specification.  The Rust sources under `shared/src` are shallowly embedded:
pure functions become Lean functions, the stateful outbox engine becomes
explicit state passing over a state record, machine integers become `Nat`
with explicit saturation where the source uses saturating arithmetic, and
fallible code returns `Except`.  External collaborators (the SQLite storage
port, the AEAD primitive from the `chacha20poly1305` crate, `ciborium`,
`blake3`, serde and the OS random source) are modelled as explicit ports:
either as function parameters or as idealized executable definitions, as
documented at each site.
-/

namespace WarmStreet

/-! ### Association-list primitives

`std::collections::HashMap` is modelled as an association list.  The list
order stands for one fixed iteration order of the hash map (Rust's iteration
order is arbitrary; every statement proved below either holds for all orders
or explicitly concerns one concrete store).  `alPut` overwrites in place
(like `HashMap::insert` on an existing key) and appends fresh keys at the
end; `alRemove` removes the (unique) binding of a key.
-/

def alGet {κ α : Type} [DecidableEq κ] (l : List (κ × α)) (k : κ) : Option α :=
  match l with
  | [] => none
  | (k2, v) :: rest => if k2 = k then some v else alGet rest k

def alPut {κ α : Type} [DecidableEq κ] (l : List (κ × α)) (k : κ) (v : α) :
    List (κ × α) :=
  match l with
  | [] => [(k, v)]
  | (k2, v2) :: rest => if k2 = k then (k, v) :: rest else (k2, v2) :: alPut rest k v

def alRemove {κ α : Type} [DecidableEq κ] (l : List (κ × α)) (k : κ) : List (κ × α) :=
  match l with
  | [] => []
  | (k2, v2) :: rest => if k2 = k then rest else (k2, v2) :: alRemove rest k

def alContains {κ α : Type} [DecidableEq κ] (l : List (κ × α)) (k : κ) : Bool :=
  (alGet l k).isSome

theorem alGet_alPut_self {κ α : Type} [DecidableEq κ] (l : List (κ × α)) (k : κ) (v : α) :
    alGet (alPut l k v) k = some v := by
  induction l with
  | nil => simp [alPut, alGet]
  | cons p rest ih =>
    obtain ⟨k2, v2⟩ := p
    by_cases h : k2 = k <;> simp [alPut, alGet, h, ih]

theorem alGet_alPut_ne {κ α : Type} [DecidableEq κ] (l : List (κ × α)) (k k2 : κ) (v : α)
    (h : k ≠ k2) : alGet (alPut l k v) k2 = alGet l k2 := by
  induction l with
  | nil => simp [alPut, alGet, h]
  | cons p rest ih =>
    obtain ⟨k3, v3⟩ := p
    by_cases h3 : k3 = k
    · subst h3; simp [alPut, alGet, h]
    · simp [alPut, alGet, h3, ih]

theorem alRemove_alPut_of_absent {κ α : Type} [DecidableEq κ] (l : List (κ × α)) (k : κ)
    (v : α) (h : alGet l k = none) : alRemove (alPut l k v) k = l := by
  induction l with
  | nil => simp [alPut, alRemove]
  | cons p rest ih =>
    obtain ⟨k2, v2⟩ := p
    by_cases h2 : k2 = k
    · simp [alGet, h2] at h
    · simp [alGet, h2] at h
      simp [alPut, alRemove, h2, ih h]

/-- Replace the first list element satisfying `p` by its image under `f`,
modelling Rust's `iter_mut().find(p)` followed by a mutation. -/
def updateFirst {α : Type} (p : α → Bool) (f : α → α) : List α → List α
  | [] => []
  | x :: xs => if p x then f x :: xs else x :: updateFirst p f xs

/-! ### Saturating 64-bit arithmetic

`UnixTimeMs` is `u64` milliseconds; the source uses `saturating_add` /
`saturating_mul` throughout. -/

def U64_MAX : Nat := 2 ^ 64 - 1

def u64SatAdd (a b : Nat) : Nat := min (a + b) U64_MAX

def u64SatMul (a b : Nat) : Nat := min (a * b) U64_MAX

/-- `u32::saturating_add` used by `RetryHistory::record_error`. -/
def u32SatAdd (a b : Nat) : Nat := min (a + b) (2 ^ 32 - 1)

/-! ### Outbox data model (`shared/src/outbox.rs`)

The validated-string newtypes (`OpId`, `IdempotencyKey`, `LocalOpId`,
`ServerCaseId`) are carried as plain `String`: their construction-time
validation is not touched by any claim under study.  `UnixTimeMs(u64)` is a
plain `Nat`. -/

/-- `LeaseToken` (outbox.rs).  The fresh `Uuid::new_v4` token is injected by
the caller of `LeaseToken.new`, modelling the randomness source. -/
structure LeaseToken where
  token : String
  acquired_at : Nat
  expires_at : Nat
  holder_id : String
  deriving Repr, DecidableEq

def LeaseToken.new (fresh_token : String) (holder_id : String) (now : Nat)
    (duration_ms : Nat) : LeaseToken :=
  { token := fresh_token
    acquired_at := now
    expires_at := u64SatAdd now duration_ms
    holder_id := holder_id }

/-- `LeaseToken::is_expired`: `now.0 >= self.expires_at.0`. -/
def LeaseToken.is_expired (l : LeaseToken) (now : Nat) : Bool :=
  l.expires_at ≤ now

inductive ErrorCategory where
  | Transient
  | RateLimited
  | ClientError
  | ServerError
  | NetworkError
  | Timeout
  | Unknown
  deriving Repr, DecidableEq

/-- `ErrorCategory::is_retryable`. -/
def ErrorCategory.is_retryable : ErrorCategory → Bool
  | .Transient => true
  | .RateLimited => true
  | .ServerError => true
  | .NetworkError => true
  | .Timeout => true
  | .ClientError => false
  | .Unknown => false

/-- `IntentError` (outbox.rs).  The UTF-8-safe truncation applied by
`IntentError::new` happens at construction and is not exercised by the
claims; entries here carry the already-constructed record. -/
structure IntentError where
  category : ErrorCategory
  code : String
  message : String
  truncated : Bool
  timestamp : Nat
  deriving Repr, DecidableEq

def IntentError.is_retryable (e : IntentError) : Bool :=
  e.category.is_retryable

/-- `RetryHistory`: ring buffer of the last ten errors plus a saturating
total-attempts counter. -/
structure RetryHistory where
  errors : List IntentError
  total_attempts : Nat
  deriving Repr, DecidableEq

def RetryHistory.new : RetryHistory :=
  { errors := [], total_attempts := 0 }

def RETRY_MAX_HISTORY : Nat := 10

/-- `RetryHistory::record_error`: bump the saturating counter, drop the
oldest record once the buffer holds `MAX_HISTORY`, append the new one. -/
def RetryHistory.record_error (h : RetryHistory) (error : IntentError) : RetryHistory :=
  let total := u32SatAdd h.total_attempts 1
  let errors := if RETRY_MAX_HISTORY ≤ h.errors.length then h.errors.drop 1 else h.errors
  { errors := errors ++ [error], total_attempts := total }

inductive DeadLetterReason where
  | MaxRetriesExceeded
  | NonRetryableError
  | DependencyFailed (dependency_op_id : String)
  | Expired
  | ManualIntervention
  | Corrupted (details : String)
  deriving Repr, DecidableEq

/-- `EntryState` (outbox.rs): entry state with explicit valid transitions. -/
inductive EntryState where
  | Pending
  | InFlight (started_at : Nat) (lease : LeaseToken)
  | Retrying (next_attempt_at : Nat) (history : RetryHistory)
  | DeadLetter (reason : DeadLetterReason) (history : RetryHistory) (dead_at : Nat)
  | Completed (completed_at : Nat)
  deriving Repr, DecidableEq

def EntryState.state_name : EntryState → String
  | .Pending => "pending"
  | .InFlight _ _ => "in_flight"
  | .Retrying _ _ => "retrying"
  | .DeadLetter _ _ _ => "dead_letter"
  | .Completed _ => "completed"

def EntryState.is_terminal : EntryState → Bool
  | .DeadLetter _ _ _ => true
  | .Completed _ => true
  | _ => false

/-- `EntryState::can_transition_to_in_flight`.  The `timeout_ms` parameter is
kept although the source never reads it. -/
def EntryState.can_transition_to_in_flight (s : EntryState) (now : Nat)
    (_timeout_ms : Nat) : Bool :=
  match s with
  | .Pending => true
  | .Retrying next_attempt_at _ => next_attempt_at ≤ now
  | .InFlight _ lease => lease.is_expired now
  | .DeadLetter _ _ _ => false
  | .Completed _ => false

/-- `EntryState::can_transition_to_completed`: only `InFlight` with an exact
token match. -/
def EntryState.can_transition_to_completed (s : EntryState)
    (lease_token : Option String) : Bool :=
  match s with
  | .InFlight _ lease =>
    match lease_token with
    | some t => t = lease.token
    | none => false
  | _ => false

/-- `EntryState::can_transition_to_failed`: same guard as completion. -/
def EntryState.can_transition_to_failed (s : EntryState)
    (lease_token : Option String) : Bool :=
  match s with
  | .InFlight _ lease =>
    match lease_token with
    | some t => t = lease.token
    | none => false
  | _ => false

/-- `EntryState::take_history`: note that `InFlight` and `Pending` yield a
fresh history — the source's `InFlight` variant does not carry one. -/
def EntryState.take_history : EntryState → RetryHistory
  | .Retrying _ history => history
  | .InFlight _ _ => RetryHistory.new
  | .Pending => RetryHistory.new
  | .DeadLetter _ history _ => history
  | .Completed _ => RetryHistory.new

/-- `OutboxIntent` (outbox.rs).  The `f64` `LatLon` payload of `CreateCase`
and the `BlobRef` photo payload are never read by the engine (only
`depends_on` and the intent tag are); they are carried as opaque string /
numeric data-free fields here, with floating-point coordinates omitted. -/
inductive OutboxIntent where
  | CreateCase (local_id : String) (description : Option String)
      (wound_severity : Option Nat) (created_at_ms_utc : Nat)
  | UploadCasePhoto (local_id : String) (photo : String) (depends_on : Option String)
  | UpdateCaseStatus (server_case_id : String) (status : String) (depends_on : Option String)
  deriving Repr, DecidableEq

/-- `OutboxIntent::depends_on`. -/
def OutboxIntent.depends_on : OutboxIntent → Option String
  | .CreateCase _ _ _ _ => none
  | .UploadCasePhoto _ _ d => d
  | .UpdateCaseStatus _ _ d => d

/-- `OutboxEntry` (outbox.rs). -/
structure OutboxEntry where
  op_id : String
  idempotency_key : String
  intent : OutboxIntent
  created_at : Nat
  expires_at : Nat
  state : EntryState
  tenant_id : Option String
  priority : Nat
  version : Nat
  deriving Repr, DecidableEq

/-- `OutboxEntry::new`. -/
def OutboxEntry.new (op_id idempotency_key : String) (intent : OutboxIntent)
    (now : Nat) (ttl_ms : Nat) : OutboxEntry :=
  { op_id := op_id
    idempotency_key := idempotency_key
    intent := intent
    created_at := now
    expires_at := u64SatAdd now ttl_ms
    state := .Pending
    tenant_id := none
    priority := 0
    version := 1 }

def OutboxEntry.is_terminal (e : OutboxEntry) : Bool :=
  e.state.is_terminal

/-- `OutboxEntry::is_expired`: `now.0 >= self.expires_at.0`. -/
def OutboxEntry.is_expired (e : OutboxEntry) (now : Nat) : Bool :=
  e.expires_at ≤ now

/-- `OutboxError` (outbox.rs). -/
inductive OutboxError where
  | Full (entries : Nat)
  | InvalidId (msg : String)
  | DuplicateOpId (msg : String)
  | DuplicateIdempotencyKey (msg : String)
  | NotFound (msg : String)
  | InvalidStateTransition (from_state : EntryState) (to_state : String) (reason : String)
  | Validation (msg : String)
  | Storage (msg : String)
  | DependencyNotSatisfied (msg : String)
  | LeaseError (msg : String)
  | RateLimited (msg : String)
  | CorruptedEntry (op_id : String) (reason : String)
  deriving Repr, DecidableEq

/-- `OutboxConfig` (outbox.rs). -/
structure OutboxConfig where
  max_entries : Nat
  max_attempts : Nat
  base_backoff_ms : Nat
  max_backoff_ms : Nat
  default_ttl_ms : Nat
  lease_duration_ms : Nat
  completed_cache_size : Nat
  completed_cache_ttl_ms : Nat
  rate_limit_per_second : Nat
  worker_id : String
  deriving Repr, DecidableEq

/-! ### Storage port (`OutboxStorage` trait)

The durable storage behind the outbox is an external port (`SqliteStorage`
in the source).  It is modelled as a keyed row store plus two
failure-injection flags mirroring the repository's own `FailableStorage`
test harness: `failSaves` makes `save` / `save_batch` return
`Err(Storage(..))`, `failCas` does the same for `compare_and_swap`.
`compare_and_swap` itself follows the SQL
`UPDATE .. WHERE op_id = ? AND version = ?`: it reports `true` and replaces
the row only when the stored row's version equals `expected_version`. -/

structure Storage where
  rows : List (String × OutboxEntry)
  failSaves : Bool
  failCas : Bool
  deriving Repr, DecidableEq

def Storage.save (s : Storage) (entry : OutboxEntry) : Except OutboxError Storage :=
  if s.failSaves then .error (.Storage "Injected failure")
  else .ok { s with rows := alPut s.rows entry.op_id entry }

def Storage.save_batch (s : Storage) (entries : List OutboxEntry) :
    Except OutboxError Storage :=
  if s.failSaves then .error (.Storage "Injected failure")
  else .ok { s with rows := entries.foldl (fun r e => alPut r e.op_id e) s.rows }

def Storage.compare_and_swap (s : Storage) (op_id : String) (expected_version : Nat)
    (new_entry : OutboxEntry) : Except OutboxError (Bool × Storage) :=
  if s.failCas then .error (.Storage "Injected CAS failure")
  else
    match alGet s.rows op_id with
    | some row =>
      if row.version = expected_version then
        .ok (true, { s with rows := alPut s.rows op_id new_entry })
      else .ok (false, s)
    | none => .ok (false, s)

/-! ### Outbox engine (`Outbox<S>` in outbox.rs)

`OutboxState` is the in-memory index triple; the LRU completed-cache is a
most-recent-first association list (`lru::LruCache::put` refreshes the key
and evicts beyond capacity, `peek` reads without refreshing).  Metrics
counters and the quarantine map are observability-only and not modelled.
Each operation returns its `Result` together with the post-state; sources of
nondeterminism (the rate-limiter outcome, `UnixTimeMs::now()` inside `push`,
the fresh UUID lease token, and the backoff jitter drawn from
`rand::gen_range(0..=2000)`) are passed as explicit parameters. -/

def lruPut {α : Type} (c : List (String × α)) (cap : Nat) (k : String) (v : α) :
    List (String × α) :=
  ((k, v) :: c.filter (fun p => p.1 ≠ k)).take cap

structure OutboxState where
  entries_by_op_id : List (String × OutboxEntry)
  entries_by_idem_key : List (String × String)
  completed_idem_keys : List (String × (Nat × Nat))
  deriving Repr, DecidableEq

structure Outbox where
  storage : Storage
  config : OutboxConfig
  state : OutboxState
  deriving Repr, DecidableEq

/-- `Outbox::push`.  `rateOk` is the outcome of `rate_limiter.try_acquire()`
and `now` the `UnixTimeMs::now()` read inside the completed-cache check. -/
def Outbox.push (o : Outbox) (rateOk : Bool) (now : Nat) (entry : OutboxEntry) :
    Except OutboxError Unit × Outbox :=
  if !rateOk then
    (.error (.RateLimited "Too many requests, try again later"), o)
  else
    let op_id_str := entry.op_id
    let idem_key_str := entry.idempotency_key
    if o.config.max_entries ≤ o.state.entries_by_op_id.length then
      (.error (.Full o.config.max_entries), o)
    else if alContains o.state.entries_by_op_id op_id_str then
      (.error (.DuplicateOpId op_id_str), o)
    else if alContains o.state.entries_by_idem_key idem_key_str then
      (.error (.DuplicateIdempotencyKey idem_key_str), o)
    else
      let cacheHit :=
        match alGet o.state.completed_idem_keys idem_key_str with
        | some (completed_at, cache_expires_at) =>
          if now < cache_expires_at then some completed_at else none
        | none => none
      match cacheHit with
      | some completed_at =>
        (.error (.DuplicateIdempotencyKey
          (idem_key_str ++ " (completed at " ++ toString completed_at ++ ")")), o)
      | none =>
        let st2 := { o.state with
          entries_by_op_id := alPut o.state.entries_by_op_id op_id_str entry
          entries_by_idem_key := alPut o.state.entries_by_idem_key idem_key_str op_id_str }
        match o.storage.save entry with
        | .error e =>
          let st3 := { st2 with
            entries_by_op_id := alRemove st2.entries_by_op_id op_id_str
            entries_by_idem_key := alRemove st2.entries_by_idem_key idem_key_str }
          (.error e, { o with state := st3 })
        | .ok storage2 =>
          (.ok (), { o with storage := storage2, state := st2 })

/-- `Outbox::dependencies_satisfied`: a missing dependency is treated as
satisfied. -/
def dependencies_satisfied (entry : OutboxEntry)
    (all_entries : List (String × OutboxEntry)) : Bool :=
  match entry.intent.depends_on with
  | some dep_op_id =>
    match alGet all_entries dep_op_id with
    | some dep_entry =>
      match dep_entry.state with
      | .Completed _ => true
      | _ => false
    | none => true
  | none => true

/-- The comparator used by `get_due_entries`'s `sort_by`:
`b.priority.cmp(&a.priority).then_with(|| a.created_at.cmp(&b.created_at))`,
i.e. `a` precedes (or ties) `b` when `a` has higher priority, or equal
priority and earlier-or-equal creation. -/
def dueOrder (a b : OutboxEntry) : Prop :=
  b.priority < a.priority ∨ (a.priority = b.priority ∧ a.created_at ≤ b.created_at)

instance : DecidableRel dueOrder := fun a b => by
  unfold dueOrder; infer_instance

/-- The eligibility filter of `get_due_entries`, in map iteration order:
not past `expires_at`, state permits the transition to `InFlight`, and the
dependency (if any) is `Completed` or absent. -/
def eligibleEntries (o : Outbox) (now : Nat) : List OutboxEntry :=
  (o.state.entries_by_op_id.map Prod.snd).filter (fun e =>
    !e.is_expired now
      && e.state.can_transition_to_in_flight now o.config.lease_duration_ms
      && dependencies_satisfied e o.state.entries_by_op_id)

/-- `Outbox::get_due_entries`.  Faithful to the source: the eligibility
filter and the `take(limit)` run over the map iteration order FIRST, and the
`(priority desc, created_at asc)` sort is applied only to the already-capped
selection.  Rust's `sort_by` is a stable sort; `List.insertionSort` is the
stable sort used to model it. -/
def Outbox.get_due_entries (o : Outbox) (now : Nat) (limit : Nat) : List OutboxEntry :=
  List.insertionSort dueOrder ((eligibleEntries o now).take limit)

/-- `Outbox::acquire_lease`.  `fresh_token` is the injected `Uuid::new_v4`.
On a CAS `Err` the `?` operator propagates with the in-memory mutation left
in place; on a CAS conflict (`Ok(false)`) only the version is restored — the
source comments that the previous state cannot easily be restored. -/
def Outbox.acquire_lease (o : Outbox) (op_id : String) (now : Nat)
    (fresh_token : String) : Except OutboxError (OutboxEntry × LeaseToken) × Outbox :=
  match alGet o.state.entries_by_op_id op_id with
  | none => (.error (.NotFound op_id), o)
  | some entry =>
    if !entry.state.can_transition_to_in_flight now o.config.lease_duration_ms then
      (.error (.InvalidStateTransition entry.state "InFlight"
        "Entry not ready for processing"), o)
    else if entry.is_expired now then
      (.error (.InvalidStateTransition entry.state "InFlight" "Entry has expired"), o)
    else
      let expected_version := entry.version
      let lease := LeaseToken.new fresh_token o.config.worker_id now
        o.config.lease_duration_ms
      let updated := { entry with
        state := .InFlight now lease
        version := entry.version + 1 }
      let st2 := { o.state with
        entries_by_op_id := alPut o.state.entries_by_op_id op_id updated }
      match o.storage.compare_and_swap op_id expected_version updated with
      | .error e => (.error e, { o with state := st2 })
      | .ok (swapped, storage2) =>
        if !swapped then
          let st3 := { st2 with
            entries_by_op_id := alPut st2.entries_by_op_id op_id
              { updated with version := expected_version } }
          (.error (.LeaseError "Concurrent modification detected"),
            { o with storage := storage2, state := st3 })
        else
          (.ok (updated, lease), { o with storage := storage2, state := st2 })

/-- `Outbox::complete`.  The completed-idempotency-key cache is updated
before the CAS persist, and neither it nor the entry mutation is rolled back
on a CAS conflict. -/
def Outbox.complete (o : Outbox) (op_id : String) (lease_token : String) (now : Nat) :
    Except OutboxError OutboxEntry × Outbox :=
  match alGet o.state.entries_by_op_id op_id with
  | none => (.error (.NotFound op_id), o)
  | some entry =>
    if !entry.state.can_transition_to_completed (some lease_token) then
      (.error (.LeaseError "Invalid or expired lease token"), o)
    else
      let expected_version := entry.version
      let updated := { entry with
        state := .Completed now
        version := entry.version + 1 }
      let st2 := { o.state with
        entries_by_op_id := alPut o.state.entries_by_op_id op_id updated
        completed_idem_keys := lruPut o.state.completed_idem_keys
          o.config.completed_cache_size entry.idempotency_key (now, entry.expires_at) }
      match o.storage.compare_and_swap op_id expected_version updated with
      | .error e => (.error e, { o with state := st2 })
      | .ok (swapped, storage2) =>
        if !swapped then
          (.error (.LeaseError "Concurrent modification during completion"),
            { o with storage := storage2, state := st2 })
        else
          (.ok updated, { o with storage := storage2, state := st2 })

/-- `Outbox::calculate_backoff`; `jitter` is the injected
`rng.gen_range(0..=2000)` draw. -/
def calculate_backoff (cfg : OutboxConfig) (attempt : Nat) (jitter : Nat) : Nat :=
  let exponent := min attempt 16
  let base_delay := u64SatMul cfg.base_backoff_ms (2 ^ exponent)
  let capped_delay := min base_delay cfg.max_backoff_ms
  u64SatAdd capped_delay jitter

/-- `Outbox::fail`. -/
def Outbox.fail (o : Outbox) (op_id : String) (lease_token : String)
    (error : IntentError) (now : Nat) (jitter : Nat) :
    Except OutboxError OutboxEntry × Outbox :=
  match alGet o.state.entries_by_op_id op_id with
  | none => (.error (.NotFound op_id), o)
  | some entry =>
    if !entry.state.can_transition_to_failed (some lease_token) then
      (.error (.LeaseError "Invalid or expired lease token"), o)
    else
      let expected_version := entry.version
      let history := entry.state.take_history.record_error error
      let should_dead_letter := !error.is_retryable
        || o.config.max_attempts ≤ history.total_attempts
        || entry.is_expired now
      let new_state :=
        if should_dead_letter then
          let reason :=
            if !error.is_retryable then DeadLetterReason.NonRetryableError
            else if entry.is_expired now then DeadLetterReason.Expired
            else DeadLetterReason.MaxRetriesExceeded
          EntryState.DeadLetter reason history now
        else
          EntryState.Retrying
            (u64SatAdd now (calculate_backoff o.config history.total_attempts jitter))
            history
      let updated := { entry with state := new_state, version := entry.version + 1 }
      let st2 := { o.state with
        entries_by_op_id := alPut o.state.entries_by_op_id op_id updated }
      match o.storage.compare_and_swap op_id expected_version updated with
      | .error e => (.error e, { o with state := st2 })
      | .ok (swapped, storage2) =>
        if !swapped then
          (.error (.LeaseError "Concurrent modification during failure"),
            { o with storage := storage2, state := st2 })
        else
          (.ok updated, { o with storage := storage2, state := st2 })

/-- One in-memory update step of `cascade_dependency_failure` /
`expire_stale`: dead-letter the entry found under `dep_id` with the given
reason, bumping its version. -/
structure DeadLetterAcc where
  updates : List OutboxEntry
  affected : List String
  st : OutboxState

def deadLetterStep (failed_reason : String → Nat → EntryState → EntryState)
    (now : Nat) (acc : DeadLetterAcc) (dep_id : String) : DeadLetterAcc :=
  match alGet acc.st.entries_by_op_id dep_id with
  | some entry =>
    let updated := { entry with
      state := failed_reason dep_id now entry.state
      version := entry.version + 1 }
    { updates := acc.updates ++ [updated]
      affected := acc.affected ++ [dep_id]
      st := { acc.st with entries_by_op_id := alPut acc.st.entries_by_op_id dep_id updated } }
  | none => acc

/-- `Outbox::cascade_dependency_failure`: dead-letter every non-terminal
entry depending on `failed_op_id`, then batch-persist (an `Err` from
`save_batch` propagates after the in-memory mutation). -/
def Outbox.cascade_dependency_failure (o : Outbox) (failed_op_id : String) (now : Nat) :
    Except OutboxError (List String) × Outbox :=
  let dependents := ((o.state.entries_by_op_id.map Prod.snd).filter (fun e =>
      e.intent.depends_on = some failed_op_id && !e.is_terminal)).map (·.op_id)
  let step := deadLetterStep
    (fun _ dead_at stOld =>
      .DeadLetter (.DependencyFailed failed_op_id) stOld.take_history dead_at) now
  let folded := dependents.foldl step ⟨[], [], o.state⟩
  if folded.updates.isEmpty then (.ok folded.affected, { o with state := folded.st })
  else
    match o.storage.save_batch folded.updates with
    | .error e => (.error e, { o with state := folded.st })
    | .ok storage2 =>
      (.ok folded.affected, { o with storage := storage2, state := folded.st })

/-- `Outbox::expire_stale`: dead-letter (reason `Expired`) every non-terminal
entry past its `expires_at`, then batch-persist. -/
def Outbox.expire_stale (o : Outbox) (now : Nat) :
    Except OutboxError (List String) × Outbox :=
  let stale := ((o.state.entries_by_op_id.map Prod.snd).filter (fun e =>
      e.is_expired now && !e.is_terminal)).map (·.op_id)
  let step := deadLetterStep
    (fun _ dead_at stOld => .DeadLetter .Expired stOld.take_history dead_at) now
  let folded := stale.foldl step ⟨[], [], o.state⟩
  if folded.updates.isEmpty then (.ok folded.affected, { o with state := folded.st })
  else
    match o.storage.save_batch folded.updates with
    | .error e => (.error e, { o with state := folded.st })
    | .ok storage2 =>
      (.ok folded.affected, { o with storage := storage2, state := folded.st })

/-! ### Envelope cryptography (`shared/src/crypto.rs`)

Byte buffers are `List Nat` (each element a byte value).  The
XChaCha20-Poly1305 primitive comes from the external `chacha20poly1305`
crate and is modelled as an ideal AEAD: the ciphertext body stands for the
keystream-encrypted plaintext (length-preserving, exactly as the real
stream cipher), and the 16-byte Poly1305 tag is modelled as a symbolic
`AeadTag` carried alongside the byte buffer — `aeadOpen` succeeds exactly
when key, nonce, AAD and ciphertext all match the values that were sealed,
which is the defining property of the authenticator.  An `Envelope` is the
header-plus-ciphertext bytes together with that tag; its on-disk length is
`bytes.length + TAG_SIZE`. -/

def ENVELOPE_MAGIC : List Nat := [0x57, 0x41, 0x52, 0x4D, 0x43, 0x52, 0x59, 0x31]
def CURRENT_VERSION : Nat := 1
def MIN_SUPPORTED_VERSION : Nat := 1
def HEADER_SIZE : Nat := 41
def TAG_SIZE : Nat := 16
def NONCE_SIZE : Nat := 24
def KEY_SIZE : Nat := 32
def MAX_AAD_LEN : Nat := 8 * 1024
def MAX_AAD_FIELD : Nat := 1024
def RESERVED_KEY_ID : Nat := 0

/-- `u32::to_le_bytes`. -/
def u32le (v : Nat) : List Nat :=
  [v % 256, v / 256 % 256, v / 65536 % 256, v / 16777216 % 256]

/-- `u32::from_le_bytes` over a 4-byte slice. -/
def u32de (b : List Nat) : Nat :=
  b.getD 0 0 + 256 * b.getD 1 0 + 65536 * b.getD 2 0 + 16777216 * b.getD 3 0

theorem u32de_u32le (v : Nat) (h : v < 2 ^ 32) : u32de (u32le v) = v := by
  simp only [u32le, u32de, List.getD]
  simp
  omega

structure Limits where
  max_plaintext : Nat
  max_ciphertext : Nat
  deriving Repr, DecidableEq

inductive DecryptFailure where
  | MalformedEnvelope
  | UnsupportedVersion (version : Nat)
  | UnsupportedAlgorithm (alg : Nat)
  | KeyNotFound (key_id : Nat)
  | AuthenticationFailed
  | PayloadTooLarge
  deriving Repr, DecidableEq

inductive CryptoError where
  | InvalidKeyLength (expected actual : Nat)
  | InvalidKeyId (id : Nat)
  | RandomUnavailable
  | PlaintextTooLarge (size max : Nat)
  | CiphertextTooLarge (size max : Nat)
  | EncryptionFailed
  | DecryptionFailed (f : DecryptFailure)
  | AadTooLarge (size max : Nat)
  | AadFieldTooLarge (field : String) (size max : Nat)
  | AadRequired
  | NoKeysAvailable
  | CannotRemovePrimaryKey (id : Nat)
  | KeyNotFound (id : Nat)
  | LockPoisoned
  deriving Repr, DecidableEq

/-- Symbolic Poly1305 authenticator: records what was authenticated. -/
structure AeadTag where
  key : List Nat
  nonce : List Nat
  aad : List Nat
  ct : List Nat
  deriving Repr, DecidableEq

/-- Ideal XChaCha20 keystream encryption: length-preserving; the byte
content is kept as the plaintext since only the authenticator decides
round-trip success in the ideal model. -/
def aeadSealCt (_key _nonce _aad : List Nat) (plaintext : List Nat) : List Nat :=
  plaintext

def aeadOpen (key nonce aad ct : List Nat) (tag : AeadTag) : Option (List Nat) :=
  if tag = { key := key, nonce := nonce, aad := aad, ct := ct } then some ct else none

structure Envelope where
  bytes : List Nat
  tag : AeadTag
  deriving Repr, DecidableEq

/-- `KeyRing` (crypto.rs): key map, primary key selection and size limits.
The three telemetry counters and the reader-writer lock are not modelled
(lock poisoning is unreachable in a sequential embedding). -/
structure KeyRing where
  keys : List (Nat × List Nat)
  primary_key_id : Option Nat
  limits : Limits
  deriving Repr, DecidableEq

/-- `KeyRing::add_key`: rejects the reserved id 0 and non-32-byte keys; the
first key added becomes primary. -/
def KeyRing.add_key (kr : KeyRing) (key_id : Nat) (key_bytes : List Nat) :
    Except CryptoError KeyRing :=
  if key_id = RESERVED_KEY_ID then .error (.InvalidKeyId key_id)
  else if key_bytes.length ≠ KEY_SIZE then
    .error (.InvalidKeyLength KEY_SIZE key_bytes.length)
  else
    let is_first := kr.keys.isEmpty
    let kr2 := { kr with keys := alPut kr.keys key_id key_bytes }
    if is_first then .ok { kr2 with primary_key_id := some key_id } else .ok kr2

/-- `KeyRing::encrypt` (the `CryptoProvider` impl).  `nonce_bytes` is the
24-byte draw from the injected randomness provider. -/
def KeyRing.encrypt (kr : KeyRing) (nonce_bytes : List Nat)
    (plaintext aad : List Nat) : Except CryptoError Envelope :=
  if kr.limits.max_plaintext < plaintext.length then
    .error (.PlaintextTooLarge plaintext.length kr.limits.max_plaintext)
  else if aad.isEmpty then .error .AadRequired
  else if MAX_AAD_LEN < aad.length then
    .error (.AadTooLarge aad.length MAX_AAD_LEN)
  else
    let total_len := HEADER_SIZE + plaintext.length + TAG_SIZE
    if kr.limits.max_ciphertext < total_len then
      .error (.CiphertextTooLarge total_len kr.limits.max_ciphertext)
    else
      match kr.primary_key_id with
      | none => .error .NoKeysAvailable
      | some key_id =>
        match alGet kr.keys key_id with
        | none => .error .NoKeysAvailable
        | some key =>
          let ct := aeadSealCt key nonce_bytes aad plaintext
          .ok { bytes := ENVELOPE_MAGIC ++ u32le CURRENT_VERSION ++ [1]
                  ++ u32le key_id ++ nonce_bytes ++ ct
                tag := { key := key, nonce := nonce_bytes, aad := aad, ct := ct } }

/-- `KeyRing::decrypt_inner`, the header-validating decryption path.  The
envelope's total on-disk length is `bytes.length + TAG_SIZE`. -/
def KeyRing.decrypt_inner (kr : KeyRing) (envelope : Envelope) (aad : List Nat) :
    Except CryptoError (List Nat) :=
  let env_len := envelope.bytes.length + TAG_SIZE
  if env_len < HEADER_SIZE + TAG_SIZE then
    .error (.DecryptionFailed .MalformedEnvelope)
  else if kr.limits.max_ciphertext < env_len then
    .error (.DecryptionFailed .PayloadTooLarge)
  else if envelope.bytes.take 8 ≠ ENVELOPE_MAGIC then
    .error (.DecryptionFailed .MalformedEnvelope)
  else if aad.isEmpty then .error .AadRequired
  else if MAX_AAD_LEN < aad.length then
    .error (.AadTooLarge aad.length MAX_AAD_LEN)
  else
    let version := u32de ((envelope.bytes.drop 8).take 4)
    if version < MIN_SUPPORTED_VERSION ∨ CURRENT_VERSION < version then
      .error (.DecryptionFailed (.UnsupportedVersion version))
    else
      let alg_byte := envelope.bytes.getD 12 0
      if alg_byte ≠ 1 then
        .error (.DecryptionFailed (.UnsupportedAlgorithm alg_byte))
      else
        let key_id := u32de ((envelope.bytes.drop 13).take 4)
        let nonce_bytes := (envelope.bytes.drop 17).take NONCE_SIZE
        let ct := envelope.bytes.drop HEADER_SIZE
        if ct.length + TAG_SIZE < TAG_SIZE then
          .error (.DecryptionFailed .MalformedEnvelope)
        else
          match alGet kr.keys key_id with
          | none => .error (.DecryptionFailed (.KeyNotFound key_id))
          | some key =>
            match aeadOpen key nonce_bytes aad ct envelope.tag with
            | none => .error (.DecryptionFailed .AuthenticationFailed)
            | some buffer =>
              if kr.limits.max_plaintext < buffer.length then
                .error (.DecryptionFailed .PayloadTooLarge)
              else .ok buffer

/-! ### Offline store persistence (`shared/src/offline_store.rs`)

The store codec is generic over a `CryptoProvider` in the source and calls
out to `ciborium` (CBOR) and `blake3`; these external collaborators are a
`StoreCodec` port record here.  The filesystem read in `load_from_path` is
an `Option (List Nat)`: `none` models a missing file. -/

def CURRENT_SCHEMA_VERSION : Nat := 1
def MAX_STORE_BYTES : Nat := 100 * 1024 * 1024
def MAX_OUTBOX_ENTRIES : Nat := 10000
def MAX_PENDING_CASES : Nat := 1000
def STORE_MAGIC : List Nat := [0x4F, 0x46, 0x53, 0x54]

inductive LocalCaseStatus where
  | PendingUpload
  | Uploading
  | Synced
  | Failed
  deriving Repr, DecidableEq

structure BlobRef where
  uri : String
  size_bytes : Option Nat
  sha256_hex : Option String
  deriving Repr, DecidableEq

/-- `LocalCase` (model.rs).  The `f64` `LatLon` location is omitted (not
expressible and unused by the store codec). -/
structure LocalCase where
  local_id : String
  description : Option String
  wound_severity : Option Nat
  status : LocalCaseStatus
  created_at_ms_utc : Nat
  photo : Option BlobRef
  photo_upload_url : Option String
  deriving Repr, DecidableEq

inductive StoreError where
  | Crypto (e : CryptoError)
  | Serialization (msg : String)
  | Io (msg : String)
  | Outbox (e : OutboxError)
  | Corrupted (reason : String)
  | IntegrityCheckFailed (expected actual : List Nat)
  | FutureSchema (found max : Nat)
  | UnknownSchema (v : Nat)
  | StoreTooLarge (size max : Nat)
  | TooManyOutboxEntries (count max : Nat)
  | TooManyPendingCases (count max : Nat)
  | LockFailed
  deriving Repr, DecidableEq

structure StoreContext where
  user_id : String
  device_id : String
  deriving Repr, DecidableEq

/-- `StoreContext::to_aad`.  The AAD is the UTF-8 of this string; it is kept
as a `String` since the decrypt port is abstract. -/
def StoreContext.to_aad (ctx : StoreContext) : String :=
  "offline-store:v" ++ toString CURRENT_SCHEMA_VERSION ++ ":" ++ ctx.user_id
    ++ ":" ++ ctx.device_id

structure StoreEnvelope where
  magic : List Nat
  schema_version : Nat
  checksum : List Nat
  payload : List Nat
  deriving Repr, DecidableEq

structure StorePayload where
  outbox : List OutboxEntry
  pending_local_cases : List LocalCase
  deriving Repr, DecidableEq

/-- `OfflineStore` (offline_store.rs). -/
structure OfflineStore where
  schema_version : Nat
  outbox : List OutboxEntry
  pending_local_cases : List LocalCase
  deriving Repr, DecidableEq

/-- `OfflineStore::new`: empty container at the current schema version. -/
def OfflineStore.new : OfflineStore :=
  { schema_version := CURRENT_SCHEMA_VERSION
    outbox := []
    pending_local_cases := [] }

/-- External collaborators of the store codec: the injected
`CryptoProvider::decrypt`, the two `ciborium::from_reader` instantiations
and `blake3::hash`. -/
structure StoreCodec where
  decryptFn : List Nat → String → Except CryptoError (List Nat)
  readEnvelope : List Nat → Except String StoreEnvelope
  readPayload : List Nat → Except String StorePayload
  blake3Hash : List Nat → List Nat

/-- `OfflineStore::migrate`: forward-only chain; unknown prior versions are
rejected. -/
def OfflineStore.migrate (from_version : Nat) (payload : StorePayload) :
    Except StoreError OfflineStore :=
  match from_version with
  | 0 => .ok { schema_version := 1
               outbox := payload.outbox
               pending_local_cases := payload.pending_local_cases }
  | v => .error (.UnknownSchema v)

/-- `OfflineStore::deserialize_encrypted`: size gate → decrypt → magic →
schema-version → checksum → payload decode → container caps → migrate. -/
def OfflineStore.deserialize_encrypted (c : StoreCodec) (encrypted : List Nat)
    (ctx : StoreContext) : Except StoreError OfflineStore :=
  if MAX_STORE_BYTES < encrypted.length then
    .error (.StoreTooLarge encrypted.length MAX_STORE_BYTES)
  else
    let aad := ctx.to_aad
    match c.decryptFn encrypted aad with
    | .error e => .error (.Crypto e)
    | .ok envelope_bytes =>
      match c.readEnvelope envelope_bytes with
      | .error msg => .error (.Serialization msg)
      | .ok envelope =>
        if envelope.magic ≠ STORE_MAGIC then
          .error (.Corrupted "invalid magic bytes")
        else if CURRENT_SCHEMA_VERSION < envelope.schema_version then
          .error (.FutureSchema envelope.schema_version CURRENT_SCHEMA_VERSION)
        else if c.blake3Hash envelope.payload ≠ envelope.checksum then
          .error (.IntegrityCheckFailed envelope.checksum (c.blake3Hash envelope.payload))
        else
          match c.readPayload envelope.payload with
          | .error msg => .error (.Serialization msg)
          | .ok payload =>
            if MAX_OUTBOX_ENTRIES < payload.outbox.length then
              .error (.TooManyOutboxEntries payload.outbox.length MAX_OUTBOX_ENTRIES)
            else if MAX_PENDING_CASES < payload.pending_local_cases.length then
              .error (.TooManyPendingCases payload.pending_local_cases.length
                MAX_PENDING_CASES)
            else if envelope.schema_version < CURRENT_SCHEMA_VERSION then
              OfflineStore.migrate envelope.schema_version payload
            else
              .ok { schema_version := envelope.schema_version
                    outbox := payload.outbox
                    pending_local_cases := payload.pending_local_cases }

/-- `OfflineStore::load_from_path`: a missing file yields an empty container,
an empty file is a corruption error, everything else goes through
`deserialize_encrypted`. -/
def OfflineStore.load_from_path (c : StoreCodec) (file : Option (List Nat))
    (ctx : StoreContext) : Except StoreError OfflineStore :=
  match file with
  | none => .ok OfflineStore.new
  | some encrypted =>
    if encrypted.isEmpty then .error (.Corrupted "empty file")
    else OfflineStore.deserialize_encrypted c encrypted ctx

/-! ### Case status machine and optimistic mutation controller
(`shared/src/lib.rs`) -/

inductive CaseStatus where
  | Pending
  | Claimed
  | EnRoute
  | Arrived
  | Resolved
  | Cancelled
  | Expired
  deriving Repr, DecidableEq

def CaseStatus.is_terminal : CaseStatus → Bool
  | .Resolved => true
  | .Cancelled => true
  | .Expired => true
  | _ => false

def CaseStatus.is_claimable : CaseStatus → Bool
  | .Pending => true
  | _ => false

/-- `CaseStatus::valid_transitions`. -/
def CaseStatus.valid_transitions : CaseStatus → List CaseStatus
  | .Pending => [.Claimed, .Cancelled, .Expired]
  | .Claimed => [.EnRoute, .Cancelled]
  | .EnRoute => [.Arrived, .Cancelled]
  | .Arrived => [.Resolved, .Cancelled]
  | .Resolved => []
  | .Cancelled => []
  | .Expired => []

/-- `CaseStatus::can_transition_to`: membership in `valid_transitions`. -/
def CaseStatus.can_transition_to (s to2 : CaseStatus) : Bool :=
  s.valid_transitions.contains to2

/-- The local projection of a server case (`ServerCase` in lib.rs), reduced
to the fields the optimistic mutation controller reads or writes.  Omitted:
the `f64` location and distance, timestamps, reporter, photo/diagnosis
strings — all opaque payload to the controller. -/
structure ServerCase where
  id : String
  status : CaseStatus
  assigned_rescuer_id : Option String
  deriving Repr, DecidableEq

structure OptimisticMutation where
  mutation_id : String
  case_id : String
  original_status : CaseStatus
  original_assignee : Option String
  new_status : CaseStatus
  created_at_ms : Nat
  deriving Repr, DecidableEq

structure PendingClaim where
  case_id : String
  idempotency_key : String
  original_status : CaseStatus
  original_assignee : Option String
  mutation_id : String
  created_at_ms : Nat
  attempt_count : Nat
  deriving Repr, DecidableEq

inductive ToastKind where
  | Info
  | Success
  | Warning
  | Error
  deriving Repr, DecidableEq

def ToastKind.default_duration_ms : ToastKind → Nat
  | .Info => 3000
  | .Success => 2000
  | .Warning => 4000
  | .Error => 5000

structure ToastMessage where
  message : String
  kind : ToastKind
  created_at_ms : Nat
  duration_ms : Nat
  deriving Repr, DecidableEq

/-- `ToastMessage::new`; `get_current_time_ms()` is the `now_ms` argument. -/
def ToastMessage.new (message : String) (kind : ToastKind) (now_ms : Nat) :
    ToastMessage :=
  { message := message
    kind := kind
    created_at_ms := now_ms
    duration_ms := kind.default_duration_ms }

inductive ErrorKind where
  | Network
  | Timeout
  | Authentication
  | Authorization
  | Validation
  | NotFound
  | Conflict
  | RateLimited
  | QuotaExceeded
  | Internal
  | Unknown
  deriving Repr, DecidableEq

/-- `AppError` reduced to kind / message / internal message; severity,
retry-after and the context map are derived display data unused by the
claims. -/
structure AppError where
  kind : ErrorKind
  message : String
  internal_message : Option String
  deriving Repr, DecidableEq

/-- `AppError::from_http_status`.  The serde parse of the error body is the
`parsedMsg` argument (the `ApiErrorResponse.message` when the body parsed). -/
def AppError.from_http_status (status : Nat) (parsedMsg : Option String) : AppError :=
  let kind : ErrorKind :=
    if status = 400 then .Validation
    else if status = 401 then .Authentication
    else if status = 403 then .Authorization
    else if status = 404 then .NotFound
    else if status = 409 then .Conflict
    else if status = 429 then .RateLimited
    else if status = 402 then .QuotaExceeded
    else if status = 408 then .Timeout
    else if 500 ≤ status ∧ status ≤ 599 then .Internal
    else .Unknown
  { kind := kind
    message := parsedMsg.getD ("HTTP error: " ++ toString status)
    internal_message := none }

/-- The `HttpError` shape consumed by the reducer's response handlers. -/
inductive HttpError where
  | Network (msg : String)
  | Timeout
  | Status (code : Nat) (body : Option (List Nat))
  | Other (msg : String)
  deriving Repr, DecidableEq

structure HttpOutput where
  status : Nat
  body : List Nat
  deriving Repr, DecidableEq

/-- `HttpOutput::is_success`: `(200..300).contains(status)`. -/
def HttpOutput.is_success (o : HttpOutput) : Bool :=
  200 ≤ o.status && o.status < 300

structure ClaimCaseResponse where
  success : Bool
  case : Option ServerCase
  message : Option String
  deriving Repr, DecidableEq

structure TransitionCaseResponse where
  success : Bool
  case : Option ServerCase
  message : Option String
  deriving Repr, DecidableEq

/-- serde entry points used by the handlers, as an external port record. -/
structure ReducerPorts where
  parseClaimResponse : List Nat → Except String ClaimCaseResponse
  parseTransitionResponse : List Nat → Except String TransitionCaseResponse
  parseApiErrorMessage : List Nat → Option String

/-- The reducer-owned `Model`, reduced to the optimistic-controller state the
claims are about: the server-case projection, pending claims and pending
mutations, plus the toast/error surface the handlers write. -/
structure Model where
  cases : List ServerCase
  pending_claims : List (String × PendingClaim)
  pending_mutations : List (String × OptimisticMutation)
  active_toast : Option ToastMessage
  active_error : Option AppError
  deriving Repr, DecidableEq

def Model.show_toast (m : Model) (message : String) (kind : ToastKind)
    (now_ms : Nat) : Model :=
  { m with active_toast := some (ToastMessage.new message kind now_ms) }

def Model.set_error (m : Model) (error : AppError) : Model :=
  { m with active_error := some error }

/-- `Model::commit_mutation`: discard the pending record. -/
def Model.commit_mutation (m : Model) (mutation_id : String) : Model :=
  { m with pending_mutations := alRemove m.pending_mutations mutation_id }

/-- `Model::rollback_mutation`: take the pending record out; when the
referenced case is present restore its status and assignee and report
`true`, otherwise report `false` (the record stays removed). -/
def Model.rollback_mutation (m : Model) (mutation_id : String) : Bool × Model :=
  match alGet m.pending_mutations mutation_id with
  | none => (false, m)
  | some mutation =>
    let m2 := { m with pending_mutations := alRemove m.pending_mutations mutation_id }
    let restore : ServerCase → ServerCase := fun c =>
      { c with status := mutation.original_status
               assigned_rescuer_id := mutation.original_assignee }
    if m2.cases.any (fun c => c.id = mutation.case_id) then
      let cases2 := updateFirst (fun c => c.id = mutation.case_id) restore m2.cases
      (true, { m2 with cases := cases2 })
    else (false, m2)

/-- `handle_http_error` (lib.rs). -/
def handle_http_error (ports : ReducerPorts) (error : HttpError) : AppError :=
  match error with
  | .Network msg =>
    { kind := .Network, message := "Network error", internal_message := some msg }
  | .Timeout => { kind := .Timeout, message := "Request timed out", internal_message := none }
  | .Status code body =>
    AppError.from_http_status code (body.bind ports.parseApiErrorMessage)
  | .Other msg =>
    { kind := .Unknown, message := "Request failed", internal_message := some msg }

/-- `handle_claim_response` (lib.rs).  Telemetry and render effects are
dropped; `now_ms` is `get_current_time_ms()` at toast creation. -/
def handle_claim_response (ports : ReducerPorts) (case_id mutation_id : String)
    (result : Except HttpError HttpOutput) (m : Model) (now_ms : Nat) : Model :=
  let m := { m with pending_claims := alRemove m.pending_claims case_id }
  match result with
  | .ok output =>
    if output.is_success then
      let m := m.commit_mutation mutation_id
      let m :=
        match ports.parseClaimResponse output.body with
        | .ok response =>
          match response.case with
          | some updated_case =>
            let cases2 := updateFirst (fun (c : ServerCase) => c.id = case_id)
              (fun _ => updated_case) m.cases
            { m with cases := cases2 }
          | none => m
        | .error _ => m
      m.show_toast "Case claimed successfully" .Success now_ms
    else if output.status = 409 then
      let m := (m.rollback_mutation mutation_id).2
      m.show_toast "Case was claimed by another rescuer" .Warning now_ms
    else
      let m := (m.rollback_mutation mutation_id).2
      m.set_error (handle_http_error ports (.Status output.status (some output.body)))
  | .error e =>
    let m := (m.rollback_mutation mutation_id).2
    m.set_error (handle_http_error ports e)

/-- `handle_transition_response` (lib.rs). -/
def handle_transition_response (ports : ReducerPorts) (case_id mutation_id : String)
    (result : Except HttpError HttpOutput) (m : Model) (now_ms : Nat) : Model :=
  match result with
  | .ok output =>
    if output.is_success then
      let m := m.commit_mutation mutation_id
      let m :=
        match ports.parseTransitionResponse output.body with
        | .ok response =>
          match response.case with
          | some updated_case =>
            let cases2 := updateFirst (fun (c : ServerCase) => c.id = case_id)
              (fun _ => updated_case) m.cases
            { m with cases := cases2 }
          | none => m
        | .error _ => m
      m.show_toast "Status updated" .Success now_ms
    else if output.status = 409 then
      let m := (m.rollback_mutation mutation_id).2
      m.show_toast "Status was changed by someone else" .Warning now_ms
    else
      let m := (m.rollback_mutation mutation_id).2
      m.set_error (handle_http_error ports (.Status output.status (some output.body)))
  | .error e =>
    let m := (m.rollback_mutation mutation_id).2
    m.set_error (handle_http_error ports e)

/-! ### Supporting lemmas -/

theorem alRemove_of_absent {κ α : Type} [DecidableEq κ] (l : List (κ × α)) (k : κ)
    (h : alGet l k = none) : alRemove l k = l := by
  induction l with
  | nil => simp [alRemove]
  | cons p rest ih =>
    obtain ⟨k2, v2⟩ := p
    by_cases h2 : k2 = k
    · simp [alGet, h2] at h
    · simp [alGet, h2] at h
      simp [alRemove, h2, ih h]

theorem updateFirst_of_no_match {α : Type} (p : α → Bool) (f : α → α) (l : List α)
    (h : ∀ x ∈ l, p x = false) : updateFirst p f l = l := by
  induction l with
  | nil => rfl
  | cons x xs ih =>
    have hx := h x (by simp)
    simp only [updateFirst, hx, Bool.false_eq_true, if_false]
    rw [ih (fun y hy => h y (by simp [hy]))]

theorem updateFirst_split {α : Type} (p : α → Bool) (f : α → α) (pre : List α) (c : α)
    (post : List α) (hpre : ∀ x ∈ pre, p x = false) (hc : p c = true) :
    updateFirst p f (pre ++ c :: post) = pre ++ f c :: post := by
  induction pre with
  | nil => simp [updateFirst, hc]
  | cons x xs ih =>
    have hx := hpre x (by simp)
    simp only [List.cons_append, updateFirst, hx, Bool.false_eq_true, if_false,
      List.append_eq]
    rw [ih (fun y hy => hpre y (by simp [hy]))]

/-- The pending-mutation record is taken out unconditionally when present
(and vacuously when absent). -/
theorem rollback_mutation_pending (m : Model) (mid : String) :
    (m.rollback_mutation mid).2.pending_mutations = alRemove m.pending_mutations mid := by
  unfold Model.rollback_mutation
  cases h : alGet m.pending_mutations mid with
  | none => simp [alRemove_of_absent _ _ h]
  | some mu => by_cases hc : m.cases.any (fun c => c.id = mu.case_id) <;> simp [hc]

/-- When the referenced case is present, `rollback_mutation` restores its
status and assignee and reports `true`. -/
theorem rollback_mutation_restores (m : Model) (mid : String) (mu : OptimisticMutation)
    (pre : List ServerCase) (c : ServerCase) (rest : List ServerCase)
    (h : alGet m.pending_mutations mid = some mu)
    (hsplit : m.cases = pre ++ c :: rest)
    (hcid : c.id = mu.case_id)
    (hpre : ∀ c2 ∈ pre, c2.id ≠ mu.case_id) :
    (m.rollback_mutation mid).1 = true
    ∧ (m.rollback_mutation mid).2.cases =
        pre ++ { c with status := mu.original_status
                        assigned_rescuer_id := mu.original_assignee } :: rest := by
  have hany : m.cases.any (fun c2 => c2.id = mu.case_id) = true := by
    rw [hsplit]
    simp only [List.any_append, List.any_cons, Bool.or_eq_true]
    right; left
    simp [hcid]
  unfold Model.rollback_mutation
  rw [h]
  simp only [hany, if_true]
  constructor
  · trivial
  · simp only [hsplit]
    rw [updateFirst_split]
    · exact fun c2 hc2 => by simp [hpre c2 hc2]
    · simp [hcid]

/-- When the mutation is unknown or the referenced case is absent,
`rollback_mutation` reports `false` and leaves the case projection
untouched. -/
theorem rollback_mutation_no_case (m : Model) (mid : String) :
    ((alGet m.pending_mutations mid = none →
        m.rollback_mutation mid = (false, m))
     ∧ (∀ mu, alGet m.pending_mutations mid = some mu →
        (∀ c ∈ m.cases, c.id ≠ mu.case_id) →
        (m.rollback_mutation mid).1 = false
        ∧ (m.rollback_mutation mid).2.cases = m.cases)) := by
  constructor
  · intro h
    unfold Model.rollback_mutation
    rw [h]
  · intro mu h hnone
    have hany : m.cases.any (fun c2 => c2.id = mu.case_id) = false := by
      rw [List.any_eq_false]
      intro c2 hc2
      simp [hnone c2 hc2]
    unfold Model.rollback_mutation
    rw [h]
    simp [hany]

/-! ### Theorems for the claims -/

/-- C6: `can_transition_to(from, to)` is true exactly on the edges of the
case-status graph: Pending → {Claimed, Cancelled, Expired},
Claimed → {EnRoute, Cancelled}, EnRoute → {Arrived, Cancelled},
Arrived → {Resolved, Cancelled}, and no outgoing edges from Resolved,
Cancelled or Expired. -/
theorem c6_case_status_transition_graph :
    ∀ s t : CaseStatus, s.can_transition_to t = true ↔
      ((s = .Pending ∧ (t = .Claimed ∨ t = .Cancelled ∨ t = .Expired))
        ∨ (s = .Claimed ∧ (t = .EnRoute ∨ t = .Cancelled))
        ∨ (s = .EnRoute ∧ (t = .Arrived ∨ t = .Cancelled))
        ∨ (s = .Arrived ∧ (t = .Resolved ∨ t = .Cancelled))) := by
  intro s t
  cases s <;> cases t <;> decide

/-- C10: `rollback_mutation` discards the pending record whenever one
exists; it restores the referenced case's status and assignee and returns
`true` exactly when that case is present in the projection; with an unknown
mutation id or an absent case it returns `false` with no case modified, the
record still being removed in the absent-case path. -/
theorem c10_rollback_mutation (m : Model) (mid : String) :
    ((m.rollback_mutation mid).2.pending_mutations = alRemove m.pending_mutations mid)
    ∧ (alGet m.pending_mutations mid = none → m.rollback_mutation mid = (false, m))
    ∧ (∀ mu, alGet m.pending_mutations mid = some mu →
        ((m.rollback_mutation mid).1 = true ↔ ∃ c ∈ m.cases, c.id = mu.case_id))
    ∧ (∀ mu, alGet m.pending_mutations mid = some mu →
        (∀ c ∈ m.cases, c.id ≠ mu.case_id) →
        (m.rollback_mutation mid).1 = false
        ∧ (m.rollback_mutation mid).2.cases = m.cases)
    ∧ (∀ mu pre c rest, alGet m.pending_mutations mid = some mu →
        m.cases = pre ++ c :: rest → c.id = mu.case_id →
        (∀ c2 ∈ pre, c2.id ≠ mu.case_id) →
        (m.rollback_mutation mid).1 = true
        ∧ (m.rollback_mutation mid).2.cases =
            pre ++ { c with status := mu.original_status
                            assigned_rescuer_id := mu.original_assignee } :: rest) := by
  refine ⟨rollback_mutation_pending m mid, (rollback_mutation_no_case m mid).1, ?_, ?_, ?_⟩
  · intro mu h
    constructor
    · intro htrue
      by_contra hno
      push_neg at hno
      have := ((rollback_mutation_no_case m mid).2 mu h (by
        intro c hc
        exact hno c hc)).1
      rw [htrue] at this
      exact Bool.true_eq_false.mp this
    · rintro ⟨c, hc, hid⟩
      have hany : m.cases.any (fun c2 => c2.id = mu.case_id) = true := by
        rw [List.any_eq_true]
        exact ⟨c, hc, by simp [hid]⟩
      unfold Model.rollback_mutation
      rw [h]
      simp [hany]
  · exact fun mu h hnone => (rollback_mutation_no_case m mid).2 mu h hnone
  · exact fun mu pre c rest h hs hc hp =>
      rollback_mutation_restores m mid mu pre c rest h hs hc hp

/-- Witness for C10 at a concrete model: a stored mutation for case `c-1`
present in the projection is rolled back with `true`. -/
theorem c10_rollback_mutation_witness :
    (({ cases := [{ id := "c-1", status := .Claimed, assigned_rescuer_id := some "u1" }]
        pending_claims := []
        pending_mutations := [("m1",
          { mutation_id := "m1", case_id := "c-1", original_status := .Pending
            original_assignee := none, new_status := .Claimed, created_at_ms := 0 })]
        active_toast := none
        active_error := none : Model }).rollback_mutation "m1").1 = true := by
  have h := (c10_rollback_mutation
    { cases := [{ id := "c-1", status := .Claimed, assigned_rescuer_id := some "u1" }]
      pending_claims := []
      pending_mutations := [("m1",
        { mutation_id := "m1", case_id := "c-1", original_status := .Pending
          original_assignee := none, new_status := .Claimed, created_at_ms := 0 })]
      active_toast := none
      active_error := none } "m1").2.2.2.2
  exact (h _ [] _ [] (by rfl) (by rfl) (by rfl) (by simp)).1

/-- C9: loading a missing store file yields an empty container at the
current schema version; a zero-byte file is a corruption error; an on-disk
blob over 100 MB is rejected with `StoreTooLarge` — for every codec port,
so before any decryption is attempted. -/
theorem c9_load_from_path (c : StoreCodec) (ctx : StoreContext) :
    (OfflineStore.load_from_path c none ctx = .ok OfflineStore.new
      ∧ OfflineStore.new.schema_version = CURRENT_SCHEMA_VERSION
      ∧ OfflineStore.new.outbox = []
      ∧ OfflineStore.new.pending_local_cases = [])
    ∧ OfflineStore.load_from_path c (some []) ctx = .error (.Corrupted "empty file")
    ∧ (∀ encrypted : List Nat, MAX_STORE_BYTES < encrypted.length →
        OfflineStore.load_from_path c (some encrypted) ctx
          = .error (.StoreTooLarge encrypted.length MAX_STORE_BYTES)) := by
  refine ⟨⟨rfl, rfl, rfl, rfl⟩, rfl, ?_⟩
  intro encrypted hlen
  have hne : encrypted.isEmpty = false := by
    cases encrypted with
    | nil => simp [MAX_STORE_BYTES] at hlen
    | cons a l => rfl
  simp only [OfflineStore.load_from_path, hne, Bool.false_eq_true, if_false,
    OfflineStore.deserialize_encrypted, if_pos hlen]

/-- An inert codec used to witness C9 at concrete inputs. -/
def inertStoreCodec : StoreCodec :=
  { decryptFn := fun _ _ => .error .LockPoisoned
    readEnvelope := fun _ => .error "unused"
    readPayload := fun _ => .error "unused"
    blake3Hash := fun _ => [] }

/-- Witness for C9: concrete missing-file, empty-file and oversized inputs. -/
theorem c9_load_from_path_witness :
    OfflineStore.load_from_path inertStoreCodec none ⟨"u", "d"⟩ = .ok OfflineStore.new
    ∧ OfflineStore.load_from_path inertStoreCodec (some []) ⟨"u", "d"⟩
        = .error (.Corrupted "empty file")
    ∧ OfflineStore.load_from_path inertStoreCodec
        (some (List.replicate (MAX_STORE_BYTES + 1) 0)) ⟨"u", "d"⟩
        = .error (.StoreTooLarge (MAX_STORE_BYTES + 1) MAX_STORE_BYTES) := by
  have h := c9_load_from_path inertStoreCodec ⟨"u", "d"⟩
  refine ⟨h.1.1, h.2.1, ?_⟩
  have h3 := h.2.2 (List.replicate (MAX_STORE_BYTES + 1) 0) (by simp)
  simpa using h3

/-! ### C1: the retry counter resets on every lease cycle

Concrete replay of the repository's own `test_max_retries_dead_letters`
scenario: `max_attempts = 3`, `base_backoff_ms = 100`, one entry, three
`acquire_lease` / `fail` cycles with `Transient` (retryable) errors at
t = 0 ms, 10 000 ms and 20 000 ms (jitter fixed at 0). -/

def c1_cfg : OutboxConfig :=
  { max_entries := 10000, max_attempts := 3, base_backoff_ms := 100
    max_backoff_ms := 300000, default_ttl_ms := 604800000, lease_duration_ms := 60000
    completed_cache_size := 100000, completed_cache_ttl_ms := 86400000
    rate_limit_per_second := 1000, worker_id := "w" }

def c1_entry : OutboxEntry :=
  OutboxEntry.new "op-1" "idem-1" (.CreateCase "local-1" none none 0) 0 3600000

def c1_o0 : Outbox :=
  { storage := { rows := [("op-1", c1_entry)], failSaves := false, failCas := false }
    config := c1_cfg
    state := { entries_by_op_id := [("op-1", c1_entry)]
               entries_by_idem_key := [("idem-1", "op-1")]
               completed_idem_keys := [] } }

def c1_terr (t : Nat) : IntentError :=
  { category := .Transient, code := "ERR", message := "fail", truncated := false
    timestamp := t }

def c1_r1 := c1_o0.acquire_lease "op-1" 0 "t1"
def c1_r2 := c1_r1.2.fail "op-1" "t1" (c1_terr 0) 0 0
def c1_r3 := c1_r2.2.acquire_lease "op-1" 10000 "t2"
def c1_r4 := c1_r3.2.fail "op-1" "t2" (c1_terr 10000) 10000 0
def c1_r5 := c1_r4.2.acquire_lease "op-1" 20000 "t3"
def c1_r6 := c1_r5.2.fail "op-1" "t3" (c1_terr 20000) 20000 0

/-- C1: after `N = M = 3` retryable failures on an entry with
`max_attempts = 3` (every lease and every fail succeeding, the entry never
past `expires_at`), the entry is NOT in `DeadLetter{MaxRetriesExceeded}` —
it is still `Retrying`, and its recorded `total_attempts` is `1`, because
`acquire_lease` writes `InFlight { started_at, lease }` without the retry
history and `take_history` on `InFlight` starts a fresh history, so the
attempt counter resets on every cycle.  This contradicts the claim and the
repository's own test `test_max_retries_dead_letters`. -/
theorem c1_max_retries_code_bug :
    c1_r1.1.isOk = true ∧ c1_r2.1.isOk = true ∧ c1_r3.1.isOk = true
    ∧ c1_r4.1.isOk = true ∧ c1_r5.1.isOk = true ∧ c1_r6.1.isOk = true
    ∧ ((alGet c1_r6.2.state.entries_by_op_id "op-1").map
        (fun e => e.state.state_name) = some "retrying")
    ∧ ((alGet c1_r6.2.state.entries_by_op_id "op-1").map
        (fun e => e.state.take_history.total_attempts) = some 1)
    ∧ c1_cfg.max_attempts = 3 := by
  refine ⟨rfl, rfl, rfl, rfl, rfl, rfl, rfl, rfl, rfl⟩

/-! ### C2: `get_due_entries` caps before sorting -/

def c2_low : OutboxEntry :=
  { OutboxEntry.new "low" "idem-low" (.CreateCase "l1" none none 0) 0 3600000 with
    priority := 1 }

def c2_high : OutboxEntry :=
  { OutboxEntry.new "high" "idem-high" (.CreateCase "l2" none none 0) 0 3600000 with
    priority := 10 }

def c2_outbox : Outbox :=
  { storage := { rows := [("low", c2_low), ("high", c2_high)]
                 failSaves := false, failCas := false }
    config := { c1_cfg with max_attempts := 25, base_backoff_ms := 1000 }
    state := { entries_by_op_id := [("low", c2_low), ("high", c2_high)]
               entries_by_idem_key := [("idem-low", "low"), ("idem-high", "high")]
               completed_idem_keys := [] } }

/-- C2 counterexample: with two eligible entries (priorities 1 and 10, the
low-priority one first in iteration order) and `limit = 1`, the code
returns the low-priority entry, while the length-1 prefix of the eligible
entries sorted by `(priority desc, created_at asc)` is the high-priority
one: the result is not a prefix of the sorted eligible list. -/
theorem c2_counterexample :
    (c2_outbox.get_due_entries 0 1).map (fun e => e.op_id) = ["low"]
    ∧ ((List.insertionSort dueOrder (eligibleEntries c2_outbox 0)).take 1).map
        (fun e => e.op_id) = ["high"] := by
  exact ⟨rfl, rfl⟩

instance : IsTotal OutboxEntry dueOrder :=
  ⟨by intro a b; unfold dueOrder; omega⟩

instance : IsTrans OutboxEntry dueOrder :=
  ⟨by intro a b c hab hbc; unfold dueOrder at hab hbc ⊢; omega⟩

/-- C2 amended: `get_due_entries(now, limit)` returns
`min(limit, #eligible)` eligible entries in `(priority desc, created_at
asc)` order; the selection is the first `limit` eligible entries in map
iteration order (sorted afterwards), not the globally highest-priority
ones, and it equals the full sorted eligible list whenever
`limit ≥ #eligible`. -/
theorem c2_get_due_entries_amended (o : Outbox) (now limit : Nat) :
    (o.get_due_entries now limit).length = min limit (eligibleEntries o now).length
    ∧ (∀ e ∈ o.get_due_entries now limit, e ∈ eligibleEntries o now)
    ∧ List.Sorted dueOrder (o.get_due_entries now limit)
    ∧ ((eligibleEntries o now).length ≤ limit →
        o.get_due_entries now limit
          = List.insertionSort dueOrder (eligibleEntries o now)) := by
  refine ⟨?_, ?_, ?_, ?_⟩
  · simp [Outbox.get_due_entries]
  · intro e he
    simp only [Outbox.get_due_entries, List.mem_insertionSort] at he
    exact List.mem_of_mem_take he
  · exact List.sorted_insertionSort dueOrder _
  · intro hle
    simp [Outbox.get_due_entries, List.take_of_length_le hle]

/-- Witness for the amended C2 at a concrete store: with `limit = 5 ≥ 2`
eligible entries the result is exactly the sorted eligible list. -/
theorem c2_get_due_entries_amended_witness :
    (eligibleEntries c2_outbox 0).length ≤ 5
    ∧ c2_outbox.get_due_entries 0 5
        = List.insertionSort dueOrder (eligibleEntries c2_outbox 0) :=
  ⟨by decide, (c2_get_due_entries_amended c2_outbox 0 5).2.2.2 (by decide)⟩

/-! ### C3: versioned CAS persistence and the conflict path -/

/-- A compare-and-swap against a row whose version does not match (or a
missing row) reports a conflict and leaves storage unchanged. -/
theorem cas_conflict_spec (s : Storage) (op_id : String) (ev : Nat) (ne : OutboxEntry)
    (hf : s.failCas = false)
    (hrow : ∀ row, alGet s.rows op_id = some row → row.version ≠ ev) :
    s.compare_and_swap op_id ev ne = .ok (false, s) := by
  unfold Storage.compare_and_swap
  rw [hf]
  simp only [Bool.false_eq_true, if_false]
  cases h2 : alGet s.rows op_id with
  | none => rfl
  | some row => simp [hrow row h2]

/-- A compare-and-swap that reports success found a row at the expected
version and replaced it with the new entry. -/
theorem cas_success_spec (s : Storage) (op_id : String) (ev : Nat) (ne : OutboxEntry)
    (s2 : Storage) (h : s.compare_and_swap op_id ev ne = .ok (true, s2)) :
    (∃ row, alGet s.rows op_id = some row ∧ row.version = ev)
    ∧ s2.rows = alPut s.rows op_id ne := by
  unfold Storage.compare_and_swap at h
  by_cases hf : s.failCas
  · rw [hf] at h; simp at h
  · simp only [hf, Bool.false_eq_true, if_false] at h
    cases h2 : alGet s.rows op_id with
    | none => rw [h2] at h; simp at h
    | some row =>
      rw [h2] at h
      by_cases hv : row.version = ev
      · simp only [hv, if_true, Except.ok.injEq, Prod.mk.injEq] at h
        exact ⟨⟨row, rfl, hv⟩, by rw [← h.2]⟩
      · simp [hv] at h

/-- A successful compare-and-swap leaves the new entry observable in the
row store. -/
theorem cas_success_get (s : Storage) (op_id : String) (ev : Nat) (ne : OutboxEntry)
    (s2 : Storage) (h : s.compare_and_swap op_id ev ne = .ok (true, s2)) :
    alGet s2.rows op_id = some ne := by
  obtain ⟨-, hrows⟩ := cas_success_spec _ _ _ _ _ h
  rw [hrows]
  exact alGet_alPut_self _ _ _

def c3_lease : LeaseToken := LeaseToken.new "tok" "w" 0 60000

def c3_entry_mem : OutboxEntry :=
  { c1_entry with state := .InFlight 0 c3_lease, version := 2 }

def c3_entry_store : OutboxEntry := { c3_entry_mem with version := 5 }

def c3_outbox : Outbox :=
  { storage := { rows := [("op-1", c3_entry_store)], failSaves := false, failCas := false }
    config := c1_cfg
    state := { entries_by_op_id := [("op-1", c3_entry_mem)]
               entries_by_idem_key := [("idem-1", "op-1")]
               completed_idem_keys := [] } }

/-- C3 counterexample: a `complete` call whose compare-and-swap reports a
conflict (the stored row is at version 5, memory at version 2) returns a
`LeaseError` as claimed but does NOT leave the in-memory entry and the
completed-idempotency-key cache unchanged: the entry is left `Completed` at
version 3 and the idempotency key is inserted into the cache. -/
theorem c3_counterexample :
    (c3_outbox.complete "op-1" "tok" 100).1
        = .error (.LeaseError "Concurrent modification during completion")
    ∧ alGet (c3_outbox.complete "op-1" "tok" 100).2.state.entries_by_op_id "op-1"
        ≠ alGet c3_outbox.state.entries_by_op_id "op-1"
    ∧ (c3_outbox.complete "op-1" "tok" 100).2.state.completed_idem_keys
        ≠ c3_outbox.state.completed_idem_keys := by
  refine ⟨rfl, by decide, by decide⟩

theorem acquire_ok_spec (o : Outbox) (op_id : String) (now : Nat) (tok : String)
    (e : OutboxEntry) (r : OutboxEntry × LeaseToken) (o2 : Outbox)
    (hget : alGet o.state.entries_by_op_id op_id = some e)
    (heq : o.acquire_lease op_id now tok = (.ok r, o2)) :
    r.1.version = e.version + 1
    ∧ alGet o2.state.entries_by_op_id op_id = some r.1
    ∧ (∃ row, alGet o.storage.rows op_id = some row ∧ row.version = e.version)
    ∧ alGet o2.storage.rows op_id = some r.1 := by
  unfold Outbox.acquire_lease at heq
  rw [hget] at heq
  by_cases h1 : e.state.can_transition_to_in_flight now o.config.lease_duration_ms
  · by_cases h2 : e.is_expired now
    · simp [h1, h2] at heq
    · simp only [h1, h2, Bool.not_true, Bool.not_false, Bool.false_eq_true, if_false,
        if_true] at heq
      cases hcas : o.storage.compare_and_swap op_id e.version { e with state := EntryState.InFlight now (LeaseToken.new tok o.config.worker_id now o.config.lease_duration_ms), version := e.version + 1 } with
      | error err => rw [hcas] at heq; simp at heq
      | ok p =>
        obtain ⟨swapped, s2⟩ := p
        rw [hcas] at heq
        cases swapped with
        | false => simp at heq
        | true =>
          simp only [Bool.not_true, Bool.false_eq_true, if_false, Prod.mk.injEq,
            Except.ok.injEq] at heq
          obtain ⟨hr, ho2⟩ := heq
          obtain ⟨hex, hrows⟩ := cas_success_spec _ _ _ _ _ hcas
          refine ⟨?_, ?_, hex, ?_⟩
          · rw [← hr]
          · rw [← ho2, ← hr]
            exact alGet_alPut_self _ _ _
          · rw [← ho2, ← hr]
            simp only [hrows]
            exact alGet_alPut_self _ _ _
  · rw [Bool.not_eq_true] at h1
    simp [h1] at heq

theorem complete_ok_spec (o : Outbox) (op_id ltok : String) (now : Nat)
    (e r : OutboxEntry) (o2 : Outbox)
    (hget : alGet o.state.entries_by_op_id op_id = some e)
    (heq : o.complete op_id ltok now = (.ok r, o2)) :
    r.version = e.version + 1
    ∧ alGet o2.state.entries_by_op_id op_id = some r
    ∧ (∃ row, alGet o.storage.rows op_id = some row ∧ row.version = e.version)
    ∧ alGet o2.storage.rows op_id = some r := by
  unfold Outbox.complete at heq
  rw [hget] at heq
  by_cases h1 : e.state.can_transition_to_completed (some ltok)
  · simp only [h1, Bool.not_true, Bool.false_eq_true, if_false] at heq
    split at heq
    · simp at heq
    · rename_i p hcas
      obtain ⟨swapped, s2⟩ := p
      split at heq
      · simp at heq
      · rename_i hsw
        rw [Bool.not_eq_true', Bool.not_eq_false] at hsw
        subst hsw
        simp only [Prod.mk.injEq, Except.ok.injEq] at heq
        obtain ⟨hr, ho2⟩ := heq
        obtain ⟨hex, hrows⟩ := cas_success_spec _ _ _ _ _ hcas
        refine ⟨?_, ?_, hex, ?_⟩
        · rw [← hr]
        · rw [← ho2, ← hr]
          simp [alGet_alPut_self]
        · rw [← ho2, ← hr]
          exact cas_success_get _ _ _ _ _ hcas
  · rw [Bool.not_eq_true] at h1
    simp [h1] at heq

theorem fail_ok_spec (o : Outbox) (op_id ltok : String) (err : IntentError)
    (now jitter : Nat) (e r : OutboxEntry) (o2 : Outbox)
    (hget : alGet o.state.entries_by_op_id op_id = some e)
    (heq : o.fail op_id ltok err now jitter = (.ok r, o2)) :
    r.version = e.version + 1
    ∧ alGet o2.state.entries_by_op_id op_id = some r
    ∧ (∃ row, alGet o.storage.rows op_id = some row ∧ row.version = e.version)
    ∧ alGet o2.storage.rows op_id = some r := by
  unfold Outbox.fail at heq
  rw [hget] at heq
  by_cases h1 : e.state.can_transition_to_failed (some ltok)
  · simp only [h1, Bool.not_true, Bool.false_eq_true, if_false] at heq
    split at heq
    · simp at heq
    · rename_i p hcas
      obtain ⟨swapped, s2⟩ := p
      split at heq
      · simp at heq
      · rename_i hsw
        rw [Bool.not_eq_true', Bool.not_eq_false] at hsw
        subst hsw
        simp only [Prod.mk.injEq, Except.ok.injEq] at heq
        obtain ⟨hr, ho2⟩ := heq
        obtain ⟨hex, hrows⟩ := cas_success_spec _ _ _ _ _ hcas
        refine ⟨?_, ?_, hex, ?_⟩
        · rw [← hr]
        · rw [← ho2, ← hr]
          simp [alGet_alPut_self]
        · rw [← ho2, ← hr]
          exact cas_success_get _ _ _ _ _ hcas
  · rw [Bool.not_eq_true] at h1
    simp [h1] at heq

theorem acquire_conflict_spec (o : Outbox) (op_id : String) (now : Nat) (tok : String)
    (e : OutboxEntry)
    (hget : alGet o.state.entries_by_op_id op_id = some e)
    (hf : o.storage.failCas = false)
    (hver : ∀ row, alGet o.storage.rows op_id = some row → row.version ≠ e.version)
    (h1 : e.state.can_transition_to_in_flight now o.config.lease_duration_ms = true)
    (h2 : e.is_expired now = false) :
    (o.acquire_lease op_id now tok).1
        = .error (.LeaseError "Concurrent modification detected")
    ∧ alGet (o.acquire_lease op_id now tok).2.state.entries_by_op_id op_id
        = some { e with state := EntryState.InFlight now (LeaseToken.new tok o.config.worker_id now o.config.lease_duration_ms) }
    ∧ (o.acquire_lease op_id now tok).2.storage = o.storage := by
  have hcas : ∀ ne, o.storage.compare_and_swap op_id e.version ne = .ok (false, o.storage) :=
    fun ne => cas_conflict_spec _ _ _ ne hf hver
  refine ⟨?_, ?_, ?_⟩ <;>
  · unfold Outbox.acquire_lease
    rw [hget]
    simp [h1, h2, hcas, alGet_alPut_self]

theorem complete_conflict_spec (o : Outbox) (op_id ltok : String) (now : Nat)
    (e : OutboxEntry)
    (hget : alGet o.state.entries_by_op_id op_id = some e)
    (hf : o.storage.failCas = false)
    (hver : ∀ row, alGet o.storage.rows op_id = some row → row.version ≠ e.version)
    (h1 : e.state.can_transition_to_completed (some ltok) = true) :
    (o.complete op_id ltok now).1
        = .error (.LeaseError "Concurrent modification during completion")
    ∧ alGet (o.complete op_id ltok now).2.state.entries_by_op_id op_id
        = some { e with state := EntryState.Completed now, version := e.version + 1 }
    ∧ (o.complete op_id ltok now).2.state.completed_idem_keys
        = lruPut o.state.completed_idem_keys o.config.completed_cache_size
            e.idempotency_key (now, e.expires_at)
    ∧ (o.complete op_id ltok now).2.storage = o.storage := by
  have hcas : ∀ ne, o.storage.compare_and_swap op_id e.version ne = .ok (false, o.storage) :=
    fun ne => cas_conflict_spec _ _ _ ne hf hver
  refine ⟨?_, ?_, ?_, ?_⟩ <;>
  · unfold Outbox.complete
    rw [hget]
    simp [h1, hcas, alGet_alPut_self]

theorem fail_conflict_spec (o : Outbox) (op_id ltok : String) (err : IntentError)
    (now jitter : Nat) (e : OutboxEntry)
    (hget : alGet o.state.entries_by_op_id op_id = some e)
    (hf : o.storage.failCas = false)
    (hver : ∀ row, alGet o.storage.rows op_id = some row → row.version ≠ e.version)
    (h1 : e.state.can_transition_to_failed (some ltok) = true) :
    (o.fail op_id ltok err now jitter).1
        = .error (.LeaseError "Concurrent modification during failure")
    ∧ ((alGet (o.fail op_id ltok err now jitter).2.state.entries_by_op_id op_id).map
        (fun u => u.version)) = some (e.version + 1)
    ∧ (o.fail op_id ltok err now jitter).2.storage = o.storage := by
  have hcas : ∀ ne, o.storage.compare_and_swap op_id e.version ne = .ok (false, o.storage) :=
    fun ne => cas_conflict_spec _ _ _ ne hf hver
  refine ⟨?_, ?_, ?_⟩ <;>
  · unfold Outbox.fail
    rw [hget]
    simp [h1, hcas, alGet_alPut_self]

/-- C3 (amended): every successful `acquire_lease` / `complete` / `fail`
increments the entry's version by exactly 1 and persists the new entry via
compare-and-swap keyed on `(op_id, expected_version)` (the stored row was at
the expected version and now holds the updated entry); when the
compare-and-swap reports a conflict the call returns a `LeaseError` and
leaves durable storage unchanged, but the in-memory mutation is NOT undone:
`acquire_lease` restores only the version (the entry stays `InFlight` under
the fresh lease), `complete` leaves the entry `Completed` at version + 1
with the idempotency key already inserted into the completed cache, and
`fail` leaves the entry at version + 1. -/
theorem c3_cas_amended (o : Outbox) (op_id fresh_tok lease_tok : String)
    (err : IntentError) (now jitter : Nat) (e : OutboxEntry)
    (hget : alGet o.state.entries_by_op_id op_id = some e) :
    ((∀ r o2, o.acquire_lease op_id now fresh_tok = (.ok r, o2) →
        r.1.version = e.version + 1
        ∧ alGet o2.state.entries_by_op_id op_id = some r.1
        ∧ (∃ row, alGet o.storage.rows op_id = some row ∧ row.version = e.version)
        ∧ alGet o2.storage.rows op_id = some r.1)
      ∧ (∀ r o2, o.complete op_id lease_tok now = (.ok r, o2) →
          r.version = e.version + 1
          ∧ alGet o2.state.entries_by_op_id op_id = some r
          ∧ (∃ row, alGet o.storage.rows op_id = some row ∧ row.version = e.version)
          ∧ alGet o2.storage.rows op_id = some r)
      ∧ (∀ r o2, o.fail op_id lease_tok err now jitter = (.ok r, o2) →
          r.version = e.version + 1
          ∧ alGet o2.state.entries_by_op_id op_id = some r
          ∧ (∃ row, alGet o.storage.rows op_id = some row ∧ row.version = e.version)
          ∧ alGet o2.storage.rows op_id = some r))
    ∧ (o.storage.failCas = false →
       (∀ row, alGet o.storage.rows op_id = some row → row.version ≠ e.version) →
       ((e.state.can_transition_to_in_flight now o.config.lease_duration_ms = true →
          e.is_expired now = false →
          (o.acquire_lease op_id now fresh_tok).1
              = .error (.LeaseError "Concurrent modification detected")
          ∧ alGet (o.acquire_lease op_id now fresh_tok).2.state.entries_by_op_id op_id
              = some { e with state := EntryState.InFlight now (LeaseToken.new fresh_tok o.config.worker_id now o.config.lease_duration_ms) }
          ∧ (o.acquire_lease op_id now fresh_tok).2.storage = o.storage)
        ∧ (e.state.can_transition_to_completed (some lease_tok) = true →
            (o.complete op_id lease_tok now).1
                = .error (.LeaseError "Concurrent modification during completion")
            ∧ alGet (o.complete op_id lease_tok now).2.state.entries_by_op_id op_id
                = some { e with state := EntryState.Completed now, version := e.version + 1 }
            ∧ (o.complete op_id lease_tok now).2.state.completed_idem_keys
                = lruPut o.state.completed_idem_keys o.config.completed_cache_size
                    e.idempotency_key (now, e.expires_at)
            ∧ (o.complete op_id lease_tok now).2.storage = o.storage)
        ∧ (e.state.can_transition_to_failed (some lease_tok) = true →
            (o.fail op_id lease_tok err now jitter).1
                = .error (.LeaseError "Concurrent modification during failure")
            ∧ ((alGet (o.fail op_id lease_tok err now jitter).2.state.entries_by_op_id
                  op_id).map (fun u => u.version)) = some (e.version + 1)
            ∧ (o.fail op_id lease_tok err now jitter).2.storage = o.storage))) := by
  constructor
  · exact ⟨fun r o2 h => acquire_ok_spec o op_id now fresh_tok e r o2 hget h,
      fun r o2 h => complete_ok_spec o op_id lease_tok now e r o2 hget h,
      fun r o2 h => fail_ok_spec o op_id lease_tok err now jitter e r o2 hget h⟩
  · intro hf hver
    exact ⟨fun h1 h2 => acquire_conflict_spec o op_id now fresh_tok e hget hf hver h1 h2,
      fun h1 => complete_conflict_spec o op_id lease_tok now e hget hf hver h1,
      fun h1 => fail_conflict_spec o op_id lease_tok err now jitter e hget hf hver h1⟩

/-- Witness for the amended C3: at the concrete conflict store (memory
version 2, stored row version 5) a `complete` under a valid lease returns
the `LeaseError` while the in-memory entry is left `Completed` at
version 3. -/
theorem c3_cas_amended_witness :
    (c3_outbox.complete "op-1" "tok" 100).1
        = .error (.LeaseError "Concurrent modification during completion")
    ∧ alGet (c3_outbox.complete "op-1" "tok" 100).2.state.entries_by_op_id "op-1"
        = some { c3_entry_mem with state := EntryState.Completed 100, version := 3 } := by
  have hver : ∀ row, alGet c3_outbox.storage.rows "op-1" = some row →
      row.version ≠ c3_entry_mem.version := by
    intro row h
    have h2 : some c3_entry_store = some row := h
    injection h2 with h3
    rw [← h3]
    decide
  have h := (c3_cas_amended c3_outbox "op-1" "t" "tok" (c1_terr 0) 100 0 c3_entry_mem
    rfl).2 rfl hver
  have hc := h.2.1 (by decide)
  exact ⟨hc.1, hc.2.1⟩

/-! ### C8: the response handlers roll back on every failure reply -/

def c8_ports : ReducerPorts :=
  { parseClaimResponse := fun _ => .error "not json"
    parseTransitionResponse := fun _ => .error "not json"
    parseApiErrorMessage := fun _ => none }

def c8_model : Model :=
  { cases := [{ id := "c-1", status := .Claimed, assigned_rescuer_id := some "u1" }]
    pending_claims := [("c-1",
      { case_id := "c-1", idempotency_key := "ik", original_status := .Pending
        original_assignee := none, mutation_id := "m1", created_at_ms := 0
        attempt_count := 1 })]
    pending_mutations := [("m1",
      { mutation_id := "m1", case_id := "c-1", original_status := .Pending
        original_assignee := none, new_status := .Claimed, created_at_ms := 0 })]
    active_toast := none
    active_error := none }

/-- C8 counterexample: a 500 (server error) reply to a claim does NOT leave
the optimistic state intact — the pending mutation record is discarded and
the local projection's optimistic status and assignee are rolled back to
the recorded originals. -/
theorem c8_counterexample :
    (handle_claim_response c8_ports "c-1" "m1" (.ok { status := 500, body := [] })
        c8_model 0).pending_mutations = []
    ∧ (handle_claim_response c8_ports "c-1" "m1" (.ok { status := 500, body := [] })
        c8_model 0).cases
      = [{ id := "c-1", status := .Pending, assigned_rescuer_id := none }] := by
  exact ⟨rfl, rfl⟩

/-- C8 (amended): for every claim or transition reply that is not a 2xx —
409, any other 4xx, 5xx, a network error or a timeout alike — both handlers
roll the optimistic state back: the pending mutation record is discarded
and the referenced case's status and assignee are restored to the recorded
originals.  Nothing is left intact for a retry. -/
theorem c8_failure_reply_rolls_back (ports : ReducerPorts) (case_id mid : String)
    (m : Model) (now : Nat) (r : Except HttpError HttpOutput)
    (hr : ∀ output, r = .ok output → output.is_success = false) :
    (handle_claim_response ports case_id mid r m now).pending_mutations
        = alRemove m.pending_mutations mid
    ∧ (handle_transition_response ports case_id mid r m now).pending_mutations
        = alRemove m.pending_mutations mid
    ∧ (∀ mu pre c rest, alGet m.pending_mutations mid = some mu →
        m.cases = pre ++ c :: rest → c.id = mu.case_id →
        (∀ c2 ∈ pre, c2.id ≠ mu.case_id) →
        (handle_claim_response ports case_id mid r m now).cases
            = pre ++ { c with status := mu.original_status
                              assigned_rescuer_id := mu.original_assignee } :: rest
        ∧ (handle_transition_response ports case_id mid r m now).cases
            = pre ++ { c with status := mu.original_status
                              assigned_rescuer_id := mu.original_assignee } :: rest) := by
  have hclaims : ∀ (m2 : Model), m2.cases = m.cases →
      m2.pending_mutations = m.pending_mutations →
      (m2.rollback_mutation mid).2.pending_mutations = alRemove m.pending_mutations mid := by
    intro m2 hc hp
    rw [rollback_mutation_pending, hp]
  cases r with
  | ok output =>
    have hs := hr output rfl
    by_cases h409 : output.status = 409
    · refine ⟨?_, ?_, ?_⟩
      · simp only [handle_claim_response, hs, Bool.false_eq_true, if_false, h409, if_true]
        exact hclaims _ rfl rfl
      · simp only [handle_transition_response, hs, Bool.false_eq_true, if_false, h409,
          if_true]
        exact hclaims m rfl rfl
      · intro mu pre c rest hmu hsplit hcid hpre
        constructor
        · simp only [handle_claim_response, hs, Bool.false_eq_true, if_false, h409, if_true,
            Model.show_toast]
          exact (rollback_mutation_restores (Model.mk m.cases (alRemove m.pending_claims case_id) m.pending_mutations m.active_toast m.active_error) mid mu pre c rest hmu hsplit hcid hpre).2
        · simp only [handle_transition_response, hs, Bool.false_eq_true, if_false, h409,
            if_true, Model.show_toast]
          exact (rollback_mutation_restores _ mid mu pre c rest hmu hsplit hcid hpre).2
    · refine ⟨?_, ?_, ?_⟩
      · simp only [handle_claim_response, hs, Bool.false_eq_true, if_false, h409,
          Model.set_error]
        exact hclaims _ rfl rfl
      · simp only [handle_transition_response, hs, Bool.false_eq_true, if_false, h409,
          Model.set_error]
        exact hclaims m rfl rfl
      · intro mu pre c rest hmu hsplit hcid hpre
        constructor
        · simp only [handle_claim_response, hs, Bool.false_eq_true, if_false, h409,
            Model.set_error]
          exact (rollback_mutation_restores (Model.mk m.cases (alRemove m.pending_claims case_id) m.pending_mutations m.active_toast m.active_error) mid mu pre c rest hmu hsplit hcid hpre).2
        · simp only [handle_transition_response, hs, Bool.false_eq_true, if_false, h409,
            Model.set_error]
          exact (rollback_mutation_restores _ mid mu pre c rest hmu hsplit hcid hpre).2
  | error e =>
    refine ⟨?_, ?_, ?_⟩
    · simp only [handle_claim_response, Model.set_error]
      exact hclaims _ rfl rfl
    · simp only [handle_transition_response, Model.set_error]
      exact hclaims m rfl rfl
    · intro mu pre c rest hmu hsplit hcid hpre
      constructor
      · simp only [handle_claim_response, Model.set_error]
        exact (rollback_mutation_restores (Model.mk m.cases (alRemove m.pending_claims case_id) m.pending_mutations m.active_toast m.active_error) mid mu pre c rest hmu hsplit hcid hpre).2
      · simp only [handle_transition_response, Model.set_error]
        exact (rollback_mutation_restores _ mid mu pre c rest hmu hsplit hcid hpre).2

/-- Witness for the amended C8: a concrete timeout reply rolls the claim
back at the concrete model. -/
theorem c8_failure_reply_rolls_back_witness :
    (handle_claim_response c8_ports "c-1" "m1" (.error .Timeout) c8_model 0).pending_mutations
        = alRemove c8_model.pending_mutations "m1"
    ∧ (handle_claim_response c8_ports "c-1" "m1" (.error .Timeout) c8_model 0).cases
        = [{ id := "c-1", status := .Pending, assigned_rescuer_id := none }] := by
  have h := c8_failure_reply_rolls_back c8_ports "c-1" "m1" c8_model 0 (.error .Timeout)
    (by intro output h; cases h)
  refine ⟨h.1, ?_⟩
  have h2 := (h.2.2 _ [] _ [] rfl rfl rfl (by simp)).1
  simpa using h2

/-! ### C4: envelope round trip and AAD binding -/

theorem encrypt_ok (kr : KeyRing) (nonce pt aad : List Nat) (kid : Nat) (key : List Nat)
    (hpk : kr.primary_key_id = some kid) (hkey : alGet kr.keys kid = some key)
    (hpt : pt.length ≤ kr.limits.max_plaintext)
    (haad1 : aad ≠ []) (haad2 : aad.length ≤ MAX_AAD_LEN)
    (hct : HEADER_SIZE + pt.length + TAG_SIZE ≤ kr.limits.max_ciphertext) :
    kr.encrypt nonce pt aad
      = .ok { bytes := ENVELOPE_MAGIC ++ u32le CURRENT_VERSION ++ [1] ++ u32le kid ++ nonce ++ pt
              tag := ⟨key, nonce, aad, pt⟩ } := by
  unfold KeyRing.encrypt
  rw [if_neg (Nat.not_lt.mpr hpt),
    if_neg (by simp [List.isEmpty_iff, haad1]),
    if_neg (Nat.not_lt.mpr haad2),
    if_neg (Nat.not_lt.mpr hct), hpk]
  simp only [hkey]
  rfl

theorem decrypt_inner_of_encrypted (kr : KeyRing) (kid : Nat) (key nonce pt aad aad2 : List Nat)
    (hkid : kid < 2 ^ 32) (hkey : alGet kr.keys kid = some key)
    (hn : nonce.length = NONCE_SIZE)
    (hpt : pt.length ≤ kr.limits.max_plaintext)
    (haad1 : aad2 ≠ []) (haad2 : aad2.length ≤ MAX_AAD_LEN)
    (hct : HEADER_SIZE + pt.length + TAG_SIZE ≤ kr.limits.max_ciphertext) :
    kr.decrypt_inner
      { bytes := ENVELOPE_MAGIC ++ u32le CURRENT_VERSION ++ [1] ++ u32le kid ++ nonce ++ pt
        tag := ⟨key, nonce, aad, pt⟩ } aad2
      = if aad2 = aad then .ok pt else .error (.DecryptionFailed .AuthenticationFailed) := by
  have hB : (ENVELOPE_MAGIC ++ u32le CURRENT_VERSION ++ [1] ++ u32le kid ++ nonce ++ pt).length
      = 41 + pt.length := by
    simp only [List.length_append, ENVELOPE_MAGIC, u32le, List.length_cons, List.length_nil,
      hn, NONCE_SIZE]
  have h1 : ¬((ENVELOPE_MAGIC ++ u32le CURRENT_VERSION ++ [1] ++ u32le kid ++ nonce ++ pt).length
      + TAG_SIZE < HEADER_SIZE + TAG_SIZE) := by
    rw [hB]; simp only [HEADER_SIZE, TAG_SIZE]; omega
  have h2 : ¬(kr.limits.max_ciphertext <
      (ENVELOPE_MAGIC ++ u32le CURRENT_VERSION ++ [1] ++ u32le kid ++ nonce ++ pt).length
      + TAG_SIZE) := by
    rw [hB]; simp only [HEADER_SIZE, TAG_SIZE] at hct ⊢; omega
  have h3 : (ENVELOPE_MAGIC ++ u32le CURRENT_VERSION ++ [1] ++ u32le kid ++ nonce ++ pt).take 8
      = ENVELOPE_MAGIC := rfl
  have h4 : aad2.isEmpty = false := by simp [List.isEmpty_iff, haad1]
  have h5 : ¬(MAX_AAD_LEN < aad2.length) := Nat.not_lt.mpr haad2
  have h6 : u32de (((ENVELOPE_MAGIC ++ u32le CURRENT_VERSION ++ [1] ++ u32le kid ++ nonce ++ pt).drop 8).take 4) = 1 := rfl
  have h7 : ¬((1 : Nat) < MIN_SUPPORTED_VERSION ∨ CURRENT_VERSION < 1) := by decide
  have h8 : (ENVELOPE_MAGIC ++ u32le CURRENT_VERSION ++ [1] ++ u32le kid ++ nonce ++ pt).getD 12 0 = 1 := rfl
  have e13 : ((ENVELOPE_MAGIC ++ u32le CURRENT_VERSION ++ [1] ++ u32le kid ++ nonce ++ pt).drop 13).take 4 = u32le kid := rfl
  have h9 : u32de (((ENVELOPE_MAGIC ++ u32le CURRENT_VERSION ++ [1] ++ u32le kid ++ nonce ++ pt).drop 13).take 4) = kid := by
    rw [e13]
    exact u32de_u32le kid hkid
  have e17 : (ENVELOPE_MAGIC ++ u32le CURRENT_VERSION ++ [1] ++ u32le kid ++ nonce ++ pt).drop 17 = nonce ++ pt := rfl
  have hnonce : ((ENVELOPE_MAGIC ++ u32le CURRENT_VERSION ++ [1] ++ u32le kid ++ nonce ++ pt).drop 17).take NONCE_SIZE = nonce := by
    rw [e17]
    exact List.take_left' hn
  have hctp : (ENVELOPE_MAGIC ++ u32le CURRENT_VERSION ++ [1] ++ u32le kid ++ nonce ++ pt).drop HEADER_SIZE = pt := by
    show ((nonce ++ pt).drop 24) = pt
    exact List.drop_left' hn
  have h10 : ¬(pt.length + TAG_SIZE < TAG_SIZE) := by simp only [TAG_SIZE]; omega
  have h12 : ¬(kr.limits.max_plaintext < pt.length) := Nat.not_lt.mpr hpt
  by_cases haa : aad2 = aad
  · subst haa
    simp only [KeyRing.decrypt_inner, h1, h2, h3, h4, h5, h6, h7, h8, h9, hnonce, hctp,
      h10, h12, hkey, aeadOpen, ne_eq, not_true_eq_false, Bool.false_eq_true,
      not_false_eq_true, if_false, if_true, ite_true, ite_false, if_pos rfl, if_neg]
  · simp only [KeyRing.decrypt_inner, h1, h2, h3, h4, h5, h6, h7, h8, h9, hnonce, hctp,
      h10, h12, hkey, aeadOpen, ne_eq, not_true_eq_false, Bool.false_eq_true,
      not_false_eq_true, if_false, if_true, ite_true, ite_false]
    rw [if_neg (by intro hmk; injection hmk with hk hn2 ha hc; exact haa ha.symm),
      if_neg haa]


/-- C4: for a keyring with a primary key, a plaintext within the size
limits and a non-empty AAD within the AAD limits, `encrypt` succeeds and
`decrypt` of the envelope under the same AAD returns the plaintext, while
`decrypt` under any different (non-empty, in-limits) AAD fails with
`DecryptionFailed(AuthenticationFailed)`.  The XChaCha20-Poly1305 primitive
is the ideal AEAD model described above. -/
theorem c4_encrypt_decrypt_roundtrip (kr : KeyRing) (nonce pt aad aad2 : List Nat)
    (kid : Nat) (key : List Nat)
    (hpk : kr.primary_key_id = some kid) (hkey : alGet kr.keys kid = some key)
    (hkid : kid < 2 ^ 32) (hn : nonce.length = NONCE_SIZE)
    (hpt : pt.length ≤ kr.limits.max_plaintext)
    (haad1 : aad ≠ []) (haad2 : aad.length ≤ MAX_AAD_LEN)
    (hct : HEADER_SIZE + pt.length + TAG_SIZE ≤ kr.limits.max_ciphertext) :
    (∃ env, kr.encrypt nonce pt aad = .ok env)
    ∧ (∀ env, kr.encrypt nonce pt aad = .ok env → kr.decrypt_inner env aad = .ok pt)
    ∧ (aad2 ≠ aad → aad2 ≠ [] → aad2.length ≤ MAX_AAD_LEN →
        ∀ env, kr.encrypt nonce pt aad = .ok env →
          kr.decrypt_inner env aad2 = .error (.DecryptionFailed .AuthenticationFailed)) := by
  have henc := encrypt_ok kr nonce pt aad kid key hpk hkey hpt haad1 haad2 hct
  refine ⟨⟨_, henc⟩, ?_, ?_⟩
  · intro env h
    rw [henc] at h
    injection h with h2
    subst h2
    have hd := decrypt_inner_of_encrypted kr kid key nonce pt aad aad hkid hkey hn hpt
      haad1 haad2 hct
    rw [if_pos rfl] at hd
    exact hd
  · intro hne hne1 hlen env h
    rw [henc] at h
    injection h with h2
    subst h2
    have hd := decrypt_inner_of_encrypted kr kid key nonce pt aad aad2 hkid hkey hn hpt
      hne1 hlen hct
    rw [if_neg hne] at hd
    exact hd

def c4_kr : KeyRing :=
  { keys := [(1, List.replicate 32 7)]
    primary_key_id := some 1
    limits := { max_plaintext := 5242880, max_ciphertext := 6291456 } }

/-- Witness for C4 at a concrete keyring, nonce, plaintext and AADs. -/
theorem c4_encrypt_decrypt_roundtrip_witness :
    (∃ env, c4_kr.encrypt (List.replicate 24 9) [104, 101, 108, 108, 111] [1, 2] = .ok env)
    ∧ (∀ env, c4_kr.encrypt (List.replicate 24 9) [104, 101, 108, 108, 111] [1, 2] = .ok env →
        c4_kr.decrypt_inner env [1, 2] = .ok [104, 101, 108, 108, 111])
    ∧ (∀ env, c4_kr.encrypt (List.replicate 24 9) [104, 101, 108, 108, 111] [1, 2] = .ok env →
        c4_kr.decrypt_inner env [3] = .error (.DecryptionFailed .AuthenticationFailed)) := by
  have h := c4_encrypt_decrypt_roundtrip c4_kr (List.replicate 24 9)
    [104, 101, 108, 108, 111] [1, 2] [3] 1 (List.replicate 32 7) rfl rfl (by decide)
    (by decide) (by decide) (by decide) (by decide) (by decide)
  exact ⟨h.1, h.2.1, h.2.2 (by decide) (by decide) (by decide)⟩

/-! ### C5: terminal entry states have no outgoing transitions -/

/-- The five state-mutating engine operations quantified over by the claim. -/
inductive OutboxOp where
  | acquire (op_id : String) (now : Nat) (fresh_token : String)
  | complete (op_id : String) (lease_token : String) (now : Nat)
  | fail (op_id : String) (lease_token : String) (error : IntentError) (now jitter : Nat)
  | cascade (failed_op_id : String) (now : Nat)
  | expire (now : Nat)

/-- Post-state of running one engine operation. -/
def Outbox.applyOp (o : Outbox) : OutboxOp → Outbox
  | .acquire id now tok => (o.acquire_lease id now tok).2
  | .complete id tok now => (o.complete id tok now).2
  | .fail id tok err now j => (o.fail id tok err now j).2
  | .cascade id now => (o.cascade_dependency_failure id now).2
  | .expire now => (o.expire_stale now).2

/-- Well-formedness maintained by the engine: map keys are distinct and each
entry is stored under its own `op_id` (push inserts with `key = op_id` and
every update preserves both). -/
def OutboxState.wf (st : OutboxState) : Prop :=
  st.entries_by_op_id.Pairwise (fun p q => p.1 ≠ q.1)
  ∧ ∀ p ∈ st.entries_by_op_id, p.2.op_id = p.1

theorem terminal_no_in_flight (s : EntryState) (h : s.is_terminal = true)
    (now t : Nat) : s.can_transition_to_in_flight now t = false := by
  cases s <;> simp_all [EntryState.is_terminal, EntryState.can_transition_to_in_flight]

theorem terminal_no_completed (s : EntryState) (h : s.is_terminal = true)
    (tok : Option String) : s.can_transition_to_completed tok = false := by
  cases s <;> simp_all [EntryState.is_terminal, EntryState.can_transition_to_completed]

theorem terminal_no_failed (s : EntryState) (h : s.is_terminal = true)
    (tok : Option String) : s.can_transition_to_failed tok = false := by
  cases s <;> simp_all [EntryState.is_terminal, EntryState.can_transition_to_failed]

theorem acquire_terminal_noop (o : Outbox) (id : String) (now : Nat) (tok : String)
    (e : OutboxEntry) (hget : alGet o.state.entries_by_op_id id = some e)
    (hterm : e.state.is_terminal = true) :
    (o.acquire_lease id now tok).2 = o := by
  unfold Outbox.acquire_lease
  rw [hget]
  simp [terminal_no_in_flight e.state hterm]

theorem complete_terminal_noop (o : Outbox) (id tok : String) (now : Nat)
    (e : OutboxEntry) (hget : alGet o.state.entries_by_op_id id = some e)
    (hterm : e.state.is_terminal = true) :
    (o.complete id tok now).2 = o := by
  unfold Outbox.complete
  rw [hget]
  simp [terminal_no_completed e.state hterm]

theorem fail_terminal_noop (o : Outbox) (id tok : String) (err : IntentError)
    (now jitter : Nat) (e : OutboxEntry)
    (hget : alGet o.state.entries_by_op_id id = some e)
    (hterm : e.state.is_terminal = true) :
    (o.fail id tok err now jitter).2 = o := by
  unfold Outbox.fail
  rw [hget]
  simp [terminal_no_failed e.state hterm]

theorem acquire_preserves_other (o : Outbox) (t : String) (now : Nat) (tok : String)
    (id : String) (hne : t ≠ id) :
    alGet (o.acquire_lease t now tok).2.state.entries_by_op_id id
      = alGet o.state.entries_by_op_id id := by
  unfold Outbox.acquire_lease
  cases h : alGet o.state.entries_by_op_id t with
  | none => rfl
  | some entry =>
    dsimp only []
    split
    · rfl
    · split
      · rfl
      · split
        · simp [alGet_alPut_ne _ _ _ _ hne]
        · split
          · simp [alGet_alPut_ne _ _ _ _ hne]
          · simp [alGet_alPut_ne _ _ _ _ hne]

theorem complete_preserves_other (o : Outbox) (t tok : String) (now : Nat)
    (id : String) (hne : t ≠ id) :
    alGet (o.complete t tok now).2.state.entries_by_op_id id
      = alGet o.state.entries_by_op_id id := by
  unfold Outbox.complete
  cases h : alGet o.state.entries_by_op_id t with
  | none => rfl
  | some entry =>
    dsimp only []
    split
    · rfl
    · split
      · simp [alGet_alPut_ne _ _ _ _ hne]
      · split
        · simp [alGet_alPut_ne _ _ _ _ hne]
        · simp [alGet_alPut_ne _ _ _ _ hne]

theorem fail_preserves_other (o : Outbox) (t tok : String) (err : IntentError)
    (now jitter : Nat) (id : String) (hne : t ≠ id) :
    alGet (o.fail t tok err now jitter).2.state.entries_by_op_id id
      = alGet o.state.entries_by_op_id id := by
  unfold Outbox.fail
  cases h : alGet o.state.entries_by_op_id t with
  | none => rfl
  | some entry =>
    dsimp only []
    split
    · rfl
    · split
      · simp [alGet_alPut_ne _ _ _ _ hne]
      · split
        · simp [alGet_alPut_ne _ _ _ _ hne]
        · simp [alGet_alPut_ne _ _ _ _ hne]

theorem alGet_eq_of_mem_of_nodupkeys {α : Type} (l : List (String × α)) (k : String)
    (v : α) (hpw : l.Pairwise (fun p q => p.1 ≠ q.1)) (hmem : (k, v) ∈ l) :
    alGet l k = some v := by
  induction l with
  | nil => cases hmem
  | cons p rest ih =>
    obtain ⟨k2, v2⟩ := p
    rcases List.mem_cons.mp hmem with heq | hmem2
    · injection heq with h1 h2
      subst h1; subst h2
      simp [alGet]
    · have hk2 : k2 ≠ k := by
        have := (List.pairwise_cons.mp hpw).1 (k, v) hmem2
        simpa using this
      simp only [alGet, hk2, if_false]
      exact ih (List.pairwise_cons.mp hpw).2 hmem2

theorem fold_deadLetter_preserves (f : String → Nat → EntryState → EntryState)
    (now : Nat) (ids : List String) (acc : DeadLetterAcc) (id : String)
    (hnotin : id ∉ ids) :
    alGet (ids.foldl (deadLetterStep f now) acc).st.entries_by_op_id id
      = alGet acc.st.entries_by_op_id id := by
  induction ids generalizing acc with
  | nil => rfl
  | cons i rest ih =>
    have hne : i ≠ id := by
      intro h; exact hnotin (by simp [h])
    have hrest : id ∉ rest := fun h => hnotin (by simp [h])
    rw [List.foldl_cons, ih _ hrest]
    unfold deadLetterStep
    cases h : alGet acc.st.entries_by_op_id i with
    | none => rfl
    | some entry => simp [alGet_alPut_ne _ _ _ _ hne]

theorem not_mem_dependents (o : Outbox) (id : String) (e : OutboxEntry)
    (hwf : o.state.wf) (hget : alGet o.state.entries_by_op_id id = some e)
    (hterm : e.state.is_terminal = true) (pred : OutboxEntry → Bool)
    (hpred : ∀ x, pred x = true → x.is_terminal = false) :
    id ∉ (((o.state.entries_by_op_id.map Prod.snd).filter pred).map
      (fun x => x.op_id)) := by
  intro hmem
  obtain ⟨x, hx, hxid⟩ := List.mem_map.mp hmem
  have hx2 := List.mem_filter.mp hx
  obtain ⟨x3, hx3, hx3e⟩ := List.mem_map.mp hx2.1
  obtain ⟨k3, v3⟩ := x3
  have hkey := hwf.2 (k3, v3) hx3
  simp only at hx3e hkey
  have hk3 : k3 = id := by rw [← hkey, hx3e, hxid]
  subst hk3
  have hv3 : alGet o.state.entries_by_op_id k3 = some v3 :=
    alGet_eq_of_mem_of_nodupkeys _ _ _ hwf.1 hx3
  rw [hget] at hv3
  injection hv3 with hex
  have hnt : v3.is_terminal = false := by
    apply hpred
    rw [hx3e]
    exact hx2.2
  rw [← hex] at hnt
  simp [OutboxEntry.is_terminal, hterm] at hnt

theorem cascade_preserves_terminal (o : Outbox) (fid : String) (now : Nat)
    (id : String) (e : OutboxEntry) (hwf : o.state.wf)
    (hget : alGet o.state.entries_by_op_id id = some e)
    (hterm : e.state.is_terminal = true) :
    alGet (o.cascade_dependency_failure fid now).2.state.entries_by_op_id id = some e := by
  have hnotin := not_mem_dependents o id e hwf hget hterm
    (fun x => x.intent.depends_on = some fid && !x.is_terminal)
    (by
      intro x hx
      have := (Bool.and_eq_true _ _).mp hx
      simpa using this.2)
  unfold Outbox.cascade_dependency_failure
  have hfold := fold_deadLetter_preserves
    (fun _ dead_at stOld =>
      .DeadLetter (.DependencyFailed fid) stOld.take_history dead_at) now
    (((o.state.entries_by_op_id.map Prod.snd).filter
      (fun x => x.intent.depends_on = some fid && !x.is_terminal)).map
        (fun x => x.op_id))
    ⟨[], [], o.state⟩ id hnotin
  dsimp only []
  split
  · rw [hfold]; exact hget
  · split
    · rw [hfold]; exact hget
    · rw [hfold]; exact hget

theorem expire_preserves_terminal (o : Outbox) (now : Nat)
    (id : String) (e : OutboxEntry) (hwf : o.state.wf)
    (hget : alGet o.state.entries_by_op_id id = some e)
    (hterm : e.state.is_terminal = true) :
    alGet (o.expire_stale now).2.state.entries_by_op_id id = some e := by
  have hnotin := not_mem_dependents o id e hwf hget hterm
    (fun x => x.is_expired now && !x.is_terminal)
    (by
      intro x hx
      have := (Bool.and_eq_true _ _).mp hx
      simpa using this.2)
  unfold Outbox.expire_stale
  have hfold := fold_deadLetter_preserves
    (fun _ dead_at stOld => .DeadLetter .Expired stOld.take_history dead_at) now
    (((o.state.entries_by_op_id.map Prod.snd).filter
      (fun x => x.is_expired now && !x.is_terminal)).map (fun x => x.op_id))
    ⟨[], [], o.state⟩ id hnotin
  dsimp only []
  split
  · rw [hfold]; exact hget
  · split
    · rw [hfold]; exact hget
    · rw [hfold]; exact hget

/-- C5: an entry in a terminal state (`Completed` or `DeadLetter`) is left
exactly as it is by every engine operation — `acquire_lease`, `complete`,
`fail`, `cascade_dependency_failure` and `expire_stale` — in any
well-formed store. -/
theorem c5_terminal_states_frozen (o : Outbox) (op : OutboxOp) (id : String)
    (e : OutboxEntry) (hwf : o.state.wf)
    (hget : alGet o.state.entries_by_op_id id = some e)
    (hterm : e.state.is_terminal = true) :
    alGet (o.applyOp op).state.entries_by_op_id id = some e := by
  cases op with
  | acquire t now tok =>
    by_cases ht : t = id
    · subst ht
      show alGet (o.acquire_lease t now tok).2.state.entries_by_op_id t = some e
      rw [acquire_terminal_noop o t now tok e hget hterm]
      exact hget
    · show alGet (o.acquire_lease t now tok).2.state.entries_by_op_id id = some e
      rw [acquire_preserves_other o t now tok id ht]
      exact hget
  | complete t tok now =>
    by_cases ht : t = id
    · subst ht
      show alGet (o.complete t tok now).2.state.entries_by_op_id t = some e
      rw [complete_terminal_noop o t tok now e hget hterm]
      exact hget
    · show alGet (o.complete t tok now).2.state.entries_by_op_id id = some e
      rw [complete_preserves_other o t tok now id ht]
      exact hget
  | fail t tok err now j =>
    by_cases ht : t = id
    · subst ht
      show alGet (o.fail t tok err now j).2.state.entries_by_op_id t = some e
      rw [fail_terminal_noop o t tok err now j e hget hterm]
      exact hget
    · show alGet (o.fail t tok err now j).2.state.entries_by_op_id id = some e
      rw [fail_preserves_other o t tok err now j id ht]
      exact hget
  | cascade fid now => exact cascade_preserves_terminal o fid now id e hwf hget hterm
  | expire now => exact expire_preserves_terminal o now id e hwf hget hterm

def c5_entry : OutboxEntry := { c1_entry with state := .Completed 50 }

def c5_outbox : Outbox :=
  { storage := { rows := [("op-1", c5_entry)], failSaves := false, failCas := false }
    config := c1_cfg
    state := { entries_by_op_id := [("op-1", c5_entry)]
               entries_by_idem_key := [("idem-1", "op-1")]
               completed_idem_keys := [] } }

/-- Witness for C5: a `Completed` entry survives `expire_stale` untouched
even far past its `expires_at`. -/
theorem c5_terminal_states_frozen_witness :
    alGet (c5_outbox.applyOp (.expire 999999999)).state.entries_by_op_id "op-1"
      = some c5_entry := by
  apply c5_terminal_states_frozen c5_outbox (.expire 999999999) "op-1" c5_entry
  · constructor
    · simp [c5_outbox]
    · intro p hp
      simp [c5_outbox] at hp
      rw [hp]
      rfl
  · rfl
  · rfl

/-- C7: `push` applies its gates in order — rate limit, capacity, duplicate
`op_id`, duplicate idempotency key in the live index, then the
completed-TTL cache while the cached entry's `expires_at` has not passed; a
rejected push returns the corresponding duplicate error and leaves the
whole outbox (indices and storage) untouched; and when persisting an
accepted entry fails, both in-memory indices are rolled back so the state
equals the original and the entry is not observable. -/
theorem c7_push_checks (o : Outbox) (entry : OutboxEntry) (rateOk : Bool) (now : Nat) :
    (rateOk = false →
      o.push rateOk now entry
        = (.error (.RateLimited "Too many requests, try again later"), o))
    ∧ (rateOk = true → o.config.max_entries ≤ o.state.entries_by_op_id.length →
        o.push rateOk now entry = (.error (.Full o.config.max_entries), o))
    ∧ (rateOk = true → o.state.entries_by_op_id.length < o.config.max_entries →
        alContains o.state.entries_by_op_id entry.op_id = true →
        o.push rateOk now entry = (.error (.DuplicateOpId entry.op_id), o))
    ∧ (rateOk = true → o.state.entries_by_op_id.length < o.config.max_entries →
        alContains o.state.entries_by_op_id entry.op_id = false →
        alContains o.state.entries_by_idem_key entry.idempotency_key = true →
        o.push rateOk now entry
          = (.error (.DuplicateIdempotencyKey entry.idempotency_key), o))
    ∧ (∀ completed_at cache_expires_at,
        rateOk = true → o.state.entries_by_op_id.length < o.config.max_entries →
        alContains o.state.entries_by_op_id entry.op_id = false →
        alContains o.state.entries_by_idem_key entry.idempotency_key = false →
        alGet o.state.completed_idem_keys entry.idempotency_key
          = some (completed_at, cache_expires_at) →
        now < cache_expires_at →
        o.push rateOk now entry
          = (.error (.DuplicateIdempotencyKey (entry.idempotency_key ++ " (completed at "
              ++ toString completed_at ++ ")")), o))
    ∧ (rateOk = true → o.state.entries_by_op_id.length < o.config.max_entries →
        alContains o.state.entries_by_op_id entry.op_id = false →
        alContains o.state.entries_by_idem_key entry.idempotency_key = false →
        (∀ completed_at cache_expires_at,
          alGet o.state.completed_idem_keys entry.idempotency_key
            = some (completed_at, cache_expires_at) → cache_expires_at ≤ now) →
        o.storage.failSaves = true →
        (o.push rateOk now entry).1 = .error (.Storage "Injected failure")
        ∧ (o.push rateOk now entry).2 = o
        ∧ alGet (o.push rateOk now entry).2.state.entries_by_op_id entry.op_id = none) := by
  refine ⟨?_, ?_, ?_, ?_, ?_, ?_⟩
  · intro h
    subst h
    rfl
  · intro h hcap
    subst h
    unfold Outbox.push
    simp [Nat.not_lt.mpr hcap]
  · intro h hcap hdup
    subst h
    unfold Outbox.push
    simp [Nat.not_le.mpr hcap, hdup]
  · intro h hcap hdup hidem
    subst h
    unfold Outbox.push
    simp [Nat.not_le.mpr hcap, hdup, hidem]
  · intro completed_at cache_expires_at h hcap hdup hidem hcache hfresh
    subst h
    unfold Outbox.push
    simp [Nat.not_le.mpr hcap, hdup, hidem, hcache, hfresh]
  · intro h hcap hdup hidem hcache hfs
    subst h
    have hdup2 : alGet o.state.entries_by_op_id entry.op_id = none := by
      unfold alContains at hdup
      exact Option.not_isSome_iff_eq_none.mp (by simp [hdup])
    have hidem2 : alGet o.state.entries_by_idem_key entry.idempotency_key = none := by
      unfold alContains at hidem
      exact Option.not_isSome_iff_eq_none.mp (by simp [hidem])
    have hsave : o.storage.save entry = .error (.Storage "Injected failure") := by
      unfold Storage.save
      rw [hfs]
      rfl
    have hpost : o.push true now entry
        = (.error (.Storage "Injected failure"), o) := by
      unfold Outbox.push
      simp only [Bool.not_true, Bool.false_eq_true, if_false,
        Nat.not_le.mpr hcap, hdup, hidem, hsave]
      cases hc : alGet o.state.completed_idem_keys entry.idempotency_key with
      | none =>
        simp only [hsave]
        rw [alRemove_alPut_of_absent _ _ _ hdup2, alRemove_alPut_of_absent _ _ _ hidem2]
      | some p =>
        obtain ⟨ca, ce⟩ := p
        have hle := hcache ca ce hc
        simp only [Nat.not_lt.mpr hle, if_false, hsave]
        rw [alRemove_alPut_of_absent _ _ _ hdup2, alRemove_alPut_of_absent _ _ _ hidem2]
    refine ⟨?_, ?_, ?_⟩
    · rw [hpost]
    · rw [hpost]
    · rw [hpost]
      exact hdup2

def c7_outbox : Outbox :=
  { storage := { rows := [], failSaves := true, failCas := false }
    config := c1_cfg
    state := { entries_by_op_id := []
               entries_by_idem_key := []
               completed_idem_keys := [] } }

/-- Witness for C7: with failing persistence, an accepted push is fully
rolled back at a concrete empty outbox. -/
theorem c7_push_checks_witness :
    (c7_outbox.push true 0 c1_entry).1 = .error (.Storage "Injected failure")
    ∧ (c7_outbox.push true 0 c1_entry).2 = c7_outbox
    ∧ alGet (c7_outbox.push true 0 c1_entry).2.state.entries_by_op_id "op-1" = none := by
  have h := (c7_push_checks c7_outbox c1_entry true 0).2.2.2.2.2 rfl (by decide)
    (by decide) (by decide)
    (by intro a b hab; simp [c7_outbox, alGet] at hab) rfl
  exact h

end WarmStreet
